import Mathlib

/-!
Workout map (`script.js`): model and verification.

A shallow embedding of `src/script.js`: the classes `Workout`, `Running`, `Cycling`
and the controller `App`, as pure functions over an explicit application state.

Modelling conventions.

* A JavaScript number is `JSNum`: `NaN`, the two infinities, or a finite value held as an
  exact rational.  Rounding to binary64 is not modelled and the two zeros are one value.
* A JavaScript value is `JSVal` (what `JSON.parse` can return, plus `undefined` and
  arbitrary numbers).  Fields of a workout are dynamically typed, as in the source:
  a record revived from storage carries whatever the stored JSON held.
* A string kept in `localStorage` is represented by what `JSON.parse` makes of it
  (`StoredText`): either it is rejected, or it denotes a JSON value.  `JSON.stringify x`
  is the text denoting `toJSON x`.
* What the browser and the map widget decide is a parameter (`Browser`): number and
  date conversion of strings, the time zone, the page markup, which coordinates the
  widget accepts and which list-entry selectors the DOM accepts.
* A handler returns the state it leaves behind together with how it ended (`Signal`):
  normally, after an alert, or by an uncaught exception.  State changes made before an
  exception are kept, as in JavaScript.
* The activity type of the form is one of the two options of its selector.
* `localStorage` is available and unbounded: `setItem` always succeeds.
* The HTML written by `_renderWorkout` and removed in `_deleteWorkout`, the inline
  `display` style and its timer in `_hideForm` are presentational; they are not part of
  the state.  The list-entry lookup of `_deleteWorkout` is kept, because it can throw.
* A run (`run`) starts from a first visit, with nothing stored, and is driven by events:
  every listener the constructor attaches, the position callback, the user's edits of
  the form and page loads.  A later page load reads what the application itself stored.
-/

namespace AliyaserMap

/-! ## JavaScript numbers and values -/

/-- A JavaScript number. -/
inductive JSNum
  | nan
  | posInf
  | negInf
  | fin (q : ℚ)
  deriving DecidableEq

namespace JSNum

/-- The test `Number.isFinite(inp)`. -/
def isFinite : JSNum → Bool
  | fin _ => true
  | _ => false

/-- The test `inp > 0`. -/
def gtZero : JSNum → Bool
  | posInf => true
  | fin q => decide (0 < q)
  | _ => false

/-- The operator `a / b` on numbers. -/
def div : JSNum → JSNum → JSNum
  | nan, _ => nan
  | _, nan => nan
  | posInf, fin b => if 0 ≤ b then posInf else negInf
  | negInf, fin b => if 0 ≤ b then negInf else posInf
  | posInf, _ => nan
  | negInf, _ => nan
  | fin _, posInf => fin 0
  | fin _, negInf => fin 0
  | fin a, fin b =>
    if b = 0 then (if 0 < a then posInf else if a < 0 then negInf else nan) else fin (a / b)

/-- The operator `a === b` on numbers: `NaN` differs from itself. -/
def strictEq : JSNum → JSNum → Bool
  | nan, _ => false
  | _, nan => false
  | a, b => decide (a = b)

/-- Truthiness of a number: `NaN` and zero are falsy. -/
def truthy : JSNum → Bool
  | nan => false
  | fin q => decide (q ≠ 0)
  | _ => true

end JSNum

/-- A JavaScript value: `undefined`, or data as `JSON.parse` builds it. -/
inductive JSVal
  | undefined
  | null
  | bool (b : Bool)
  | num (n : JSNum)
  | str (s : String)
  | arr (elems : List JSVal)
  | obj (props : List (String × JSVal))

namespace JSVal

/-- The operator `a === b`.  Two arrays or objects are equal only when they are the same
object; values read from different places of a parsed snapshot never are. -/
def strictEq : JSVal → JSVal → Bool
  | undefined, undefined => true
  | null, null => true
  | bool a, bool b => a == b
  | num a, num b => JSNum.strictEq a b
  | str a, str b => a == b
  | _, _ => false

/-- Truthiness, as tested by `if (!data)`. -/
def truthy : JSVal → Bool
  | undefined => false
  | null => false
  | bool b => b
  | num n => n.truthy
  | str s => s != ""
  | arr _ => true
  | obj _ => true

/-- Property read `work.key`, for a key that no prototype defines, on a value other than
`null` and `undefined`. -/
def get (v : JSVal) (key : String) : JSVal :=
  match v with
  | obj props => (props.lookup key).getD undefined
  | _ => undefined

end JSVal

mutual
/-- The JSON value that `JSON.stringify` writes for a value; `none` when the value is
left out (`undefined`). -/
def JSVal.toJSON : JSVal → Option JSVal
  | .undefined => none
  | .null => some .null
  | .bool b => some (.bool b)
  | .num n => some (if n.isFinite then .num n else .null)
  | .str s => some (.str s)
  | .arr xs => some (.arr (toJSONElems xs))
  | .obj ps => some (.obj (toJSONProps ps))
/-- Elements of an array: a left-out element is written as `null`. -/
def toJSONElems : List JSVal → List JSVal
  | [] => []
  | x :: xs => (x.toJSON.getD .null) :: toJSONElems xs
/-- Properties of an object: a left-out value drops the property. -/
def toJSONProps : List (String × JSVal) → List (String × JSVal)
  | [] => []
  | (k, v) :: ps =>
    match v.toJSON with
    | none => toJSONProps ps
    | some j => (k, j) :: toJSONProps ps
end

/-- What a value is after `JSON.stringify` and `JSON.parse`, as a property value. -/
def JSVal.stored (v : JSVal) : JSVal := v.toJSON.getD .undefined

/-- A string held in `localStorage`, identified by what `JSON.parse` makes of it. -/
inductive StoredText
  | malformed
  | json (v : JSVal)

/-- An uncaught exception. -/
inductive JSError
  | parseError
  | typeError
  | leaflet
  | selector
  deriving DecidableEq

/-! ## The browser -/

/-- What the page, the browser and the map widget decide. -/
structure Browser where
  /-- Number conversion of a string, as in `+input.value`. -/
  stringToNumber : String → JSNum
  /-- Text of an array, `Array.prototype.toString`. -/
  arrayToString : List JSVal → String
  /-- Offset of local time from UTC, in milliseconds, at a UTC time. -/
  localTZA : Int → Int
  /-- Text written for a valid date by `Date.prototype.toJSON`. -/
  toISOString : Int → String
  /-- Time value read from a string by `new Date(string)`; `none` is an invalid date. -/
  dateParse : String → Option Int
  /-- The element `.sidebar__controls` of the page as served: `none` when the page has
  none, otherwise whether it carries the class `hidden`. -/
  controlsMarkup : Option Bool
  /-- Whether the map widget accepts a value as a coordinate pair. -/
  validLatLng : JSVal → Bool
  /-- Whether `document.querySelector` rejects the list-entry selector built from an id. -/
  entrySelectorFails : JSVal → Bool
  /-- The widget accepts every pair of finite numbers. -/
  latLng_ok : ∀ lat lng : ℚ, validLatLng (.arr [.num (.fin lat), .num (.fin lng)]) = true
  /-- The DOM accepts the selector built from an id made of decimal digits. -/
  selector_ok : ∀ id : String, id.data.all Char.isDigit = true →
    entrySelectorFails (.str id) = false

/-- The coordinate pair `[lat, lng]`. -/
def latLng (p : ℚ × ℚ) : JSVal := .arr [.num (.fin p.1), .num (.fin p.2)]

/-- Number conversion of a value, as applied by `/`. -/
def ToNumber (B : Browser) : JSVal → JSNum
  | .undefined => .nan
  | .null => .fin 0
  | .bool b => if b then .fin 1 else .fin 0
  | .num n => n
  | .str s => B.stringToNumber s
  | .arr xs => B.stringToNumber (B.arrayToString xs)
  | .obj _ => .nan

/-! ## Dates -/

/-- Year, month (1 to 12) and day of the month of a day counted from 1970-01-01. -/
def civil (day : Int) : Int × Int × Int :=
  let z := day + 719468
  let era := z / 146097
  let doe := z - era * 146097
  let yoe := (doe - doe / 1460 + doe / 36524 - doe / 146096) / 365
  let doy := doe - (365 * yoe + yoe / 4 - yoe / 100)
  let mp := (5 * doy + 2) / 153
  let d := doy - (153 * mp + 2) / 5 + 1
  let m := if mp < 10 then mp + 3 else mp - 9
  (yoe + era * 400 + (if m ≤ 2 then 1 else 0), m, d)

/-- The method `getMonth()` of a valid date: 0 to 11, in local time. -/
def getMonth (B : Browser) (t : Int) : Nat :=
  ((civil ((t + B.localTZA t) / 86400000)).2.1 - 1).toNat

/-- The method `getDate()` of a valid date: day of the month, in local time. -/
def getDate (B : Browser) (t : Int) : Nat :=
  (civil ((t + B.localTZA t) / 86400000)).2.2.toNat

/-- The constructor `new Date(value)` on a stored value; `none` is an invalid date. -/
def newDate (B : Browser) : JSVal → Option Int
  | .undefined => none
  | .null => some 0
  | .bool b => some (if b then 1 else 0)
  | .num (.fin q) => if |q| ≤ 8640000000000000 then some (if 0 ≤ q then ⌊q⌋ else ⌈q⌉) else none
  | .num _ => none
  | .str s => B.dateParse s
  | .arr xs => B.dateParse (B.arrayToString xs)
  | .obj _ => B.dateParse "[object Object]"

/-- The value `date.toJSON()`. -/
def dateJSON (B : Browser) : Option Int → JSVal
  | none => .null
  | some t => .str (B.toISOString t)

/-! ## The workout classes -/

/-- The two clock readings of a construction: `new Date()` and `Date.now()`. -/
structure Clock where
  date : Nat
  now : Nat

/-- The expression `(Date.now() + "").slice(-10)`. -/
def newId (now : Nat) : String :=
  let digits := (toString now).data
  String.mk (digits.drop (digits.length - 10))

/-- The array `months` of `_setDescription`. -/
def months : List String :=
  ["January", "February", "March", "April", "May", "June", "July", "August",
   "September", "October", "November", "December"]

/-- The expression `type[0].toUpperCase() + type.slice(1)`, for a non-empty type. -/
def capitalized (type : String) : String :=
  match type.data with
  | [] => ""
  | c :: cs => String.mk (c.toUpper :: cs)

/-- The method `_setDescription`: the description built from a type and a valid date. -/
def _setDescription (B : Browser) (type : String) (date : Int) : String :=
  capitalized type ++ " on " ++ months.getD (getMonth B date) "undefined" ++ " " ++
    toString (getDate B date)

/-- Fields of class `Workout`. -/
structure Workout where
  date : Option Int
  id : JSVal
  clicks : JSVal
  coords : JSVal
  distance : JSVal
  duration : JSVal
  description : String

/-- Class `Running`. -/
structure Running extends Workout where
  cadence : JSVal
  pace : JSNum

/-- Class `Cycling`. -/
structure Cycling extends Workout where
  elevationGain : JSVal
  speed : JSNum

/-- The method `calcPace`: `duration / distance`. -/
def calcPace (B : Browser) (duration distance : JSVal) : JSNum :=
  JSNum.div (ToNumber B duration) (ToNumber B distance)

/-- The method `calcSpeed`: `distance / (duration / 60)`. -/
def calcSpeed (B : Browser) (distance duration : JSVal) : JSNum :=
  JSNum.div (ToNumber B distance) (JSNum.div (ToNumber B duration) (.fin 60))

/-- The constructor `new Running(coords, distance, duration, cadence)`. -/
def Running.new (B : Browser) (clk : Clock) (coords distance duration cadence : JSVal) :
    Running :=
  { date := some clk.date
    id := .str (newId clk.now)
    clicks := .num (.fin 0)
    coords := coords
    distance := distance
    duration := duration
    cadence := cadence
    pace := calcPace B duration distance
    description := _setDescription B "running" clk.date }

/-- The constructor `new Cycling(coords, distance, duration, elevationGain)`. -/
def Cycling.new (B : Browser) (clk : Clock) (coords distance duration elevationGain : JSVal) :
    Cycling :=
  { date := some clk.date
    id := .str (newId clk.now)
    clicks := .num (.fin 0)
    coords := coords
    distance := distance
    duration := duration
    elevationGain := elevationGain
    speed := calcSpeed B distance duration
    description := _setDescription B "cycling" clk.date }

/-- An element of the list `#workouts`: a `Running` or a `Cycling` object. -/
inductive Item
  | running (r : Running)
  | cycling (c : Cycling)

namespace Item

/-- The fields inherited from `Workout`. -/
def base : Item → Workout
  | running r => r.toWorkout
  | cycling c => c.toWorkout

/-- The class field `type`. -/
def type : Item → String
  | running _ => "running"
  | cycling _ => "cycling"

/-- The field `id`. -/
def id (w : Item) : JSVal := w.base.id

/-- The field `cadence` or `elevationGain`. -/
def extra : Item → JSVal
  | running r => r.cadence
  | cycling c => c.elevationGain

/-- The field `pace` or `speed`. -/
def metric : Item → JSNum
  | running r => r.pace
  | cycling c => c.speed

/-- The assignments `workout.id = ...; workout.clicks = ...; workout.date = ...`. -/
def restore (w : Item) (id clicks : JSVal) (date : Option Int) : Item :=
  match w with
  | running r => running { r with id := id, clicks := clicks, date := date }
  | cycling c => cycling { c with id := id, clicks := clicks, date := date }

/-- The own properties of the object, in creation order, with the date as `toJSON`
gives it. -/
def props (B : Browser) : Item → List (String × JSVal)
  | running r =>
    [("date", dateJSON B r.date), ("id", r.id), ("clicks", r.clicks), ("coords", r.coords),
     ("distance", r.distance), ("duration", r.duration), ("type", .str "running"),
     ("cadence", r.cadence), ("pace", .num r.pace), ("description", .str r.description)]
  | cycling c =>
    [("date", dateJSON B c.date), ("id", c.id), ("clicks", c.clicks), ("coords", c.coords),
     ("distance", c.distance), ("duration", c.duration), ("type", .str "cycling"),
     ("elevationGain", c.elevationGain), ("speed", .num c.speed),
     ("description", .str c.description)]

/-- The JSON value written for the object by `JSON.stringify`. -/
def toJSON (B : Browser) (w : Item) : JSVal := .obj (toJSONProps (w.props B))

end Item

/-! ## Application state -/

/-- A layer of the map. -/
inductive Layer
  | tile
  | userMarker (position : ℚ × ℚ)
  | marker (coords : JSVal) (popup : String)
  | polyline (source : ℚ × ℚ) (target : JSVal) (color : String)

/-- The map widget: its view, its layers, each under the handle of the object that was
added, and whether `_showForm` listens for clicks. -/
structure LMap where
  center : JSVal
  zoom : Nat
  layers : List (Nat × Layer)
  fresh : Nat
  onClick : Bool

/-- The call `layer.addTo(map)`: the handle of the new layer and the map. -/
def LMap.addLayer (m : LMap) (l : Layer) : Nat × LMap :=
  (m.fresh, { m with layers := m.layers ++ [(m.fresh, l)], fresh := m.fresh + 1 })

/-- The call `map.removeLayer(layer)`. -/
def LMap.removeLayer (m : LMap) (h : Nat) : LMap :=
  { m with layers := m.layers.filter fun p => p.1 != h }

/-- An element of `#markers`: the object with fields `id`, `marker` and `line`. -/
structure MarkerObj where
  id : JSVal
  marker : Option Nat
  line : Option Nat

/-- The option selected in `.form__input--type`. -/
inductive ActivityType
  | running
  | cycling
  deriving DecidableEq

/-- The private fields of `App`, the stored snapshot and the page elements it reads
and writes. -/
structure AppState where
  map : Option LMap
  mapEvent : Option (ℚ × ℚ)
  workouts : List Item
  markers : List MarkerObj
  userMarker : Option Nat
  userCoords : Option (ℚ × ℚ)
  /-- The value of `localStorage` under the key `workouts`. -/
  storage : Option StoredText
  /-- Whether `.form` carries the class `hidden`. -/
  formHidden : Bool
  inputType : ActivityType
  inputDistance : String
  inputDuration : String
  inputCadence : String
  inputElevation : String
  cadenceRowHidden : Bool
  elevationRowHidden : Bool
  /-- The element `.sidebar__controls`: `none` when absent, else whether it is hidden. -/
  sidebarControls : Option Bool
  /-- Whether the constructor reached the lines that attach the event handlers. -/
  handlers : Bool
  /-- Whether the position request of `_getPosition` is still unanswered. -/
  geoPending : Bool

/-- How a handler ended. -/
inductive Signal
  | done
  | alert (msg : String)
  | throws (e : JSError)
  deriving DecidableEq

/-- The state a handler leaves behind and how it ended. -/
structure Outcome where
  state : AppState
  signal : Signal

/-- Sequencing: the rest of a handler runs only if the first part ended normally. -/
def Outcome.andThen (o : Outcome) (f : AppState → Outcome) : Outcome :=
  match o.signal with
  | .done => f o.state
  | _ => o

/-- The constant `#mapZoomLevel`. -/
def mapZoomLevel : Nat := 16

/-! ## The controller -/

/-- The method `_showControls`. -/
def _showControls (s : AppState) : AppState :=
  { s with sidebarControls := s.sidebarControls.map fun _ => false }

/-- The method `_hideControls`. -/
def _hideControls (s : AppState) : AppState :=
  { s with sidebarControls := s.sidebarControls.map fun _ => true }

/-- The method `_setLocalStorage`: the key holds the text of the whole list. -/
def _setLocalStorage (B : Browser) (s : AppState) : AppState :=
  { s with storage := some (.json (.arr (s.workouts.map (Item.toJSON B)))) }

/-- The call `JSON.parse(localStorage.getItem("workouts"))`; an absent key reads as
`null`. -/
def parseStored : Option StoredText → Except JSError JSVal
  | none => .ok .null
  | some .malformed => .error .parseError
  | some (.json v) => .ok v

/-- The body of the `forEach` callback of `_getLocalStorage` for one record: the object
pushed to `revivedWorkouts`, if any. -/
def revive (B : Browser) (clk : Clock) (work : JSVal) : Except JSError (Option Item) :=
  match work with
  | .undefined => .error .typeError
  | .null => .error .typeError
  | _ =>
    let running : Option Item :=
      if JSVal.strictEq (work.get "type") (.str "running") then
        some (.running (Running.new B clk (work.get "coords") (work.get "distance")
          (work.get "duration") (work.get "cadence")))
      else none
    let workout : Option Item :=
      if JSVal.strictEq (work.get "type") (.str "cycling") then
        some (.cycling (Cycling.new B clk (work.get "coords") (work.get "distance")
          (work.get "duration") (work.get "elevationGain")))
      else running
    .ok (workout.map fun w =>
      w.restore (work.get "id") (work.get "clicks") (newDate B (work.get "date")))

/-- The loop `data.forEach(...)` of `_getLocalStorage`: the list `revivedWorkouts`. -/
def reviveAll (B : Browser) (clk : Clock) : List JSVal → Except JSError (List Item)
  | [] => .ok []
  | work :: rest =>
    match revive B clk work with
    | .error e => .error e
    | .ok w =>
      match reviveAll B clk rest with
      | .error e => .error e
      | .ok ws => .ok (w.toList ++ ws)

/-- The method `_getLocalStorage`. -/
def _getLocalStorage (B : Browser) (clk : Clock) (s : AppState) : Outcome :=
  match parseStored s.storage with
  | .error e => ⟨s, .throws e⟩
  | .ok data =>
    if !data.truthy then ⟨s, .done⟩
    else
      match data with
      | .arr works =>
        match reviveAll B clk works with
        | .error e => ⟨s, .throws e⟩
        | .ok revived => ⟨{ s with workouts := revived }, .done⟩
      | _ => ⟨s, .throws .typeError⟩

/-- The lookup and update shared by the two render methods: the first entry of
`#markers` with the id, or a new entry pushed at the end, gets the field set. -/
def upsert (set : MarkerObj → MarkerObj) (id : JSVal) : List MarkerObj → List MarkerObj
  | [] => [set { id := id, marker := none, line := none }]
  | m :: rest => if JSVal.strictEq m.id id then set m :: rest else m :: upsert set id rest

/-- The popup text of a workout marker. -/
def popupContent (workout : Item) : String :=
  (if workout.type = "running" then "🏃‍♂️" else "🚴‍♀️") ++ " " ++ workout.base.description

/-- The method `_renderWorkoutMarker`. -/
def _renderWorkoutMarker (B : Browser) (s : AppState) (workout : Item) : Outcome :=
  match s.map with
  | none => ⟨s, .throws .leaflet⟩
  | some m =>
    if !B.validLatLng workout.base.coords then ⟨s, .throws .leaflet⟩
    else
      let added := m.addLayer (.marker workout.base.coords (popupContent workout))
      ⟨{ s with
          map := some added.2
          markers := upsert (fun o => { o with marker := some added.1 }) workout.id s.markers },
        .done⟩

/-- The method `_renderConnectionLine`. -/
def _renderConnectionLine (B : Browser) (s : AppState) (workout : Item) : Outcome :=
  match s.map, s.userCoords with
  | some m, some user =>
    if !B.validLatLng workout.base.coords then ⟨s, .throws .leaflet⟩
    else
      let color := if workout.type = "running" then "#00c46a" else "#ffb545"
      let added := m.addLayer (.polyline user workout.base.coords color)
      ⟨{ s with
          map := some added.2
          markers := upsert (fun o => { o with line := some added.1 }) workout.id s.markers },
        .done⟩
  | _, _ => ⟨s, .throws .leaflet⟩

/-- The loop of `_loadMap` over `#workouts`: marker, then line, for each workout. -/
def renderAll (B : Browser) : List Item → AppState → Outcome
  | [], s => ⟨s, .done⟩
  | work :: rest, s =>
    ((_renderWorkoutMarker B s work).andThen fun s1 =>
      _renderConnectionLine B s1 work).andThen (renderAll B rest)

/-- The map as `_loadMap` sets it up before it renders the workouts: the view on the
user's position, the tile layer, the user's marker (`_renderUserLocationMarker`) and the
click listener; with the handle of the user's marker. -/
def initialMap (position : ℚ × ℚ) : Nat × LMap :=
  let m0 : LMap :=
    { center := latLng position, zoom := mapZoomLevel, layers := [], fresh := 0,
      onClick := false }
  let m1 := (m0.addLayer .tile).2
  let user := m1.addLayer (.userMarker position)
  (user.1, { user.2 with onClick := true })

/-- The method `_loadMap`. -/
def _loadMap (B : Browser) (s : AppState) (position : ℚ × ℚ) : Outcome :=
  let s1 := { s with userCoords := some position }
  match s1.map with
  | some _ => ⟨s1, .throws .leaflet⟩
  | none =>
    let s2 :=
      { s1 with map := some (initialMap position).2, userMarker := some (initialMap position).1 }
    (renderAll B s2.workouts s2).andThen fun s3 =>
      ⟨if 0 < s3.workouts.length then _showControls s3 else s3, .done⟩

/-- The method `_showForm`. -/
def _showForm (s : AppState) (latlng : ℚ × ℚ) : AppState :=
  { s with mapEvent := some latlng, formHidden := false }

/-- The method `_hideForm`. -/
def _hideForm (s : AppState) : AppState :=
  { s with
    inputDistance := "", inputDuration := "", inputCadence := "", inputElevation := "",
    formHidden := true }

/-- The method `_toggleElevationField`. -/
def _toggleElevationField (s : AppState) : AppState :=
  { s with
    elevationRowHidden := !s.elevationRowHidden, cadenceRowHidden := !s.cadenceRowHidden }

/-- The helper `validInputs` of `_newWorkout`. -/
def validInputs (inputs : List JSNum) : Bool := inputs.all JSNum.isFinite

/-- The helper `allPositive` of `_newWorkout`. -/
def allPositive (inputs : List JSNum) : Bool := inputs.all JSNum.gtZero

/-- The tail of `_newWorkout`, from `this.#workouts.push(workout)` on. -/
def addWorkout (B : Browser) (s : AppState) (workout : Item) : Outcome :=
  let s1 := { s with workouts := s.workouts ++ [workout] }
  ((_renderWorkoutMarker B s1 workout).andThen fun s2 =>
    _renderConnectionLine B s2 workout).andThen fun s3 =>
      ⟨_showControls (_setLocalStorage B (_hideForm s3)), .done⟩

/-- The method `_newWorkout`. -/
def _newWorkout (B : Browser) (clk : Clock) (s : AppState) : Outcome :=
  let distance := B.stringToNumber s.inputDistance
  let duration := B.stringToNumber s.inputDuration
  match s.mapEvent with
  | none => ⟨s, .throws .typeError⟩
  | some latlng =>
    match s.inputType with
    | .running =>
      let cadence := B.stringToNumber s.inputCadence
      if !validInputs [distance, duration, cadence] ||
          !allPositive [distance, duration, cadence] then
        ⟨s, .alert "Inputs must be positive numbers!"⟩
      else
        addWorkout B s (.running (Running.new B clk (latLng latlng) (.num distance)
          (.num duration) (.num cadence)))
    | .cycling =>
      let elevation := B.stringToNumber s.inputElevation
      if !validInputs [distance, duration, elevation] ||
          !allPositive [distance, duration] then
        ⟨s, .alert "Inputs must be positive numbers!"⟩
      else
        addWorkout B s (.cycling (Cycling.new B clk (latLng latlng) (.num distance)
          (.num duration) (.num elevation)))

/-- The method `_moveToPopup`, for the `data-id` of the clicked entry. -/
def _moveToPopup (B : Browser) (s : AppState) (dataId : JSVal) : Outcome :=
  match s.map with
  | none => ⟨s, .done⟩
  | some m =>
    match s.workouts.find? fun work => JSVal.strictEq work.id dataId with
    | none => ⟨s, .throws .typeError⟩
    | some workout =>
      if !B.validLatLng workout.base.coords then ⟨s, .throws .leaflet⟩
      else ⟨{ s with map := some { m with center := workout.base.coords, zoom := mapZoomLevel } },
        .done⟩

/-- Step 2 of `_deleteWorkout`: the layers of the entry leave the map. -/
def removeLayers (m : LMap) (o : MarkerObj) : LMap :=
  let m1 := match o.marker with
    | some h => m.removeLayer h
    | none => m
  match o.line with
  | some h => m1.removeLayer h
  | none => m1

/-- The method `_deleteWorkout`; `confirmed` is the answer to the `confirm` dialog. -/
def _deleteWorkout (B : Browser) (s : AppState) (id : JSVal) (confirmed : Bool) : Outcome :=
  if !confirmed then ⟨s, .done⟩
  else
    let s1 := { s with workouts := s.workouts.filter fun work => !JSVal.strictEq work.id id }
    let step2 : Outcome :=
      match s1.markers.find? fun m => JSVal.strictEq m.id id with
      | none => ⟨s1, .done⟩
      | some markerObj =>
        match s1.map with
        | none =>
          if markerObj.marker.isSome || markerObj.line.isSome then ⟨s1, .throws .typeError⟩
          else
            ⟨{ s1 with markers := s1.markers.filter fun m => !JSVal.strictEq m.id id }, .done⟩
        | some m =>
          ⟨{ s1 with
              map := some (removeLayers m markerObj)
              markers := s1.markers.filter fun m => !JSVal.strictEq m.id id },
            .done⟩
    step2.andThen fun s2 =>
      if B.entrySelectorFails id then ⟨s2, .throws .selector⟩
      else
        let s3 := _setLocalStorage B s2
        ⟨if s3.workouts.length = 0 then _hideControls s3 else s3, .done⟩

/-- The page as served, before any script has run, over a given stored value. -/
def freshPage (B : Browser) (storage : Option StoredText) : AppState :=
  { map := none, mapEvent := none, workouts := [], markers := [], userMarker := none,
    userCoords := none, storage := storage, formHidden := true, inputType := .running,
    inputDistance := "", inputDuration := "", inputCadence := "", inputElevation := "",
    cadenceRowHidden := false, elevationRowHidden := true,
    sidebarControls := B.controlsMarkup, handlers := false, geoPending := false }

/-- The statement `const app = new App()`: the constructor of `App` on a fresh page. -/
def App.new (B : Browser) (clk : Clock) (storage : Option StoredText) : Outcome :=
  let s0 := { freshPage B storage with geoPending := true }
  (_getLocalStorage B clk s0).andThen fun s1 => ⟨{ s1 with handlers := true }, .done⟩

/-- The method `reset`, followed by the page load that `location.reload()` starts. -/
def reset (B : Browser) (clk : Clock) (s : AppState) (confirmed : Bool) : Outcome :=
  if !confirmed then ⟨s, .done⟩ else App.new B clk none

/-! ## Runs of the application -/

/-- A text field of the form. -/
inductive Field
  | distance
  | duration
  | cadence
  | elevation

/-- What can happen to the page. -/
inductive Event
  /-- The page is loaded again. -/
  | reload (clk : Clock)
  /-- The position request succeeds: `_loadMap`. -/
  | position (coords : ℚ × ℚ)
  /-- The position request fails: an alert. -/
  | positionError
  /-- A click on the map: `_showForm`. -/
  | mapClick (latlng : ℚ × ℚ)
  /-- The user edits a text field of the form. -/
  | edit (field : Field) (text : String)
  /-- The user selects an activity type: `_toggleElevationField`. -/
  | selectType (type : ActivityType)
  /-- The form is submitted: `_newWorkout`. -/
  | submit (clk : Clock)
  /-- A click on a list entry outside its controls: `_moveToPopup`. -/
  | clickEntry (dataId : JSVal)
  /-- A click on a delete button: `_deleteWorkout` with its `data-id`. -/
  | clickDelete (dataId : JSVal) (confirmed : Bool)
  /-- A click on the clear-all button: `reset`. -/
  | clickClear (clk : Clock) (confirmed : Bool)

/-- The user's edit of a text field. -/
def setField (s : AppState) : Field → String → AppState
  | .distance, text => { s with inputDistance := text }
  | .duration, text => { s with inputDuration := text }
  | .cadence, text => { s with inputCadence := text }
  | .elevation, text => { s with inputElevation := text }

/-- The state after one event.  Events whose listener is not attached change nothing;
the browser's own handling of a form submitted without a listener is not modelled. -/
def step (B : Browser) (s : AppState) : Event → AppState
  | .reload clk => (App.new B clk s.storage).state
  | .position coords =>
    if s.geoPending then (_loadMap B { s with geoPending := false } coords).state else s
  | .positionError => { s with geoPending := false }
  | .mapClick latlng =>
    match s.map with
    | some m => if m.onClick then _showForm s latlng else s
    | none => s
  | .edit field text => setField s field text
  | .selectType type =>
    let s1 := { s with inputType := type }
    if s.handlers then _toggleElevationField s1 else s1
  | .submit clk => if s.handlers then (_newWorkout B clk s).state else s
  | .clickEntry dataId => if s.handlers then (_moveToPopup B s dataId).state else s
  | .clickDelete dataId confirmed =>
    if s.handlers then (_deleteWorkout B s dataId confirmed).state else s
  | .clickClear clk confirmed => if s.handlers then (reset B clk s confirmed).state else s

/-- The state after a first visit (nothing stored) followed by a sequence of events. -/
def run (B : Browser) (clk : Clock) (events : List Event) : AppState :=
  events.foldl (step B) (App.new B clk none).state

/-! ## Vocabulary of the statements -/

/-- The number read from the type-specific field of the form: cadence for running,
elevation gain for cycling. -/
def extraInput (B : Browser) (s : AppState) : JSNum :=
  match s.inputType with
  | .running => B.stringToNumber s.inputCadence
  | .cycling => B.stringToNumber s.inputElevation

/-- The condition under which a submission is accepted: the three numbers are finite,
distance and duration are positive and, for running, cadence is positive. -/
def Accepted (B : Browser) (s : AppState) : Prop :=
  (B.stringToNumber s.inputDistance).isFinite = true ∧
  (B.stringToNumber s.inputDuration).isFinite = true ∧
  (extraInput B s).isFinite = true ∧
  (B.stringToNumber s.inputDistance).gtZero = true ∧
  (B.stringToNumber s.inputDuration).gtZero = true ∧
  (s.inputType = .running → (extraInput B s).gtZero = true)

/-- A parsed element that `_getLocalStorage` takes for a record of a workout: its `type`
is "running" or "cycling". -/
def isRecord (x : JSVal) : Bool :=
  JSVal.strictEq (x.get "type") (.str "running") ||
    JSVal.strictEq (x.get "type") (.str "cycling")

/-- The values on which reading a property throws. -/
def isNullish : JSVal → Bool
  | .undefined => true
  | .null => true
  | _ => false

/-- A stored value that holds no record of a workout: the key is absent, the text is not
JSON, or it is JSON that is not an array or an array without a single record. -/
def NoRecords : Option StoredText → Prop
  | none => True
  | some .malformed => True
  | some (.json (.arr xs)) => ∀ x ∈ xs, isRecord x = false
  | some (.json _) => True

/-- How the load of a stored value without records ends. -/
def loadSignal : Option StoredText → Signal
  | none => .done
  | some .malformed => .throws .parseError
  | some (.json (.arr xs)) => if xs.any isNullish then .throws .typeError else .done
  | some (.json v) => if v.truthy then .throws .typeError else .done

/-- The pace or speed that the constructor computes from an object's own distance and
duration. -/
def Item.derived (B : Browser) : Item → JSNum
  | .running r => calcPace B r.duration r.distance
  | .cycling c => calcSpeed B c.distance c.duration

/-- The object that `_getLocalStorage` builds, at a clock reading, from the snapshot of an
object: the constructor runs on the stored fields, then `id`, `clicks` and `date` are
taken from the snapshot. -/
def reloaded (B : Browser) (clk : Clock) : Item → Item
  | .running r =>
    .running
      { Running.new B clk r.coords.stored r.distance.stored r.duration.stored
          r.cadence.stored with
        id := r.id.stored, clicks := r.clicks.stored, date := newDate B (dateJSON B r.date) }
  | .cycling c =>
    .cycling
      { Cycling.new B clk c.coords.stored c.distance.stored c.duration.stored
          c.elevationGain.stored with
        id := c.id.stored, clicks := c.clicks.stored, date := newDate B (dateJSON B c.date) }

/-- The value is a string. -/
def JSVal.isStr : JSVal → Bool
  | .str _ => true
  | _ => false

/-- The value is a finite number. -/
def JSVal.isFiniteNum : JSVal → Bool
  | .num (.fin _) => true
  | _ => false

/-- The value is a pair of finite numbers. -/
def JSVal.isLatLng : JSVal → Bool
  | .arr [.num (.fin _), .num (.fin _)] => true
  | _ => false

/-- A workout as the data model describes it: the id is a string, the coordinates are a
pair of finite numbers, and distance, duration, the click count and the type-specific
extra are finite numbers. -/
def WellFormed (w : Item) : Prop :=
  w.id.isStr = true ∧ w.base.coords.isLatLng = true ∧ w.base.distance.isFiniteNum = true ∧
  w.base.duration.isFiniteNum = true ∧ w.base.clicks.isFiniteNum = true ∧
  w.extra.isFiniteNum = true

instance (w : Item) : Decidable (WellFormed w) := by
  unfold WellFormed
  infer_instance

/-- The state `_deleteWorkout` reaches after its steps 1 and 2, given the map they leave. -/
def afterRemoval (s : AppState) (id : JSVal) (map : Option LMap) : AppState :=
  { s with
    workouts := s.workouts.filter fun work => !JSVal.strictEq work.id id
    map := map
    markers := s.markers.filter fun m => !JSVal.strictEq m.id id }

/-- The second object has the type, id, coordinates, distance, duration, click count and
extra of the first, and its pace or speed is the one computed from the first object's
distance and duration. -/
def SameData (B : Browser) (w w1 : Item) : Prop :=
  w1.type = w.type ∧ w1.id = w.id ∧ w1.base.coords = w.base.coords ∧
  w1.base.distance = w.base.distance ∧ w1.base.duration = w.base.duration ∧
  w1.base.clicks = w.base.clicks ∧ w1.extra = w.extra ∧
  w1.metric = w.derived B ∧ (w.metric = w.derived B → w1.metric = w.metric)

/-- An object as the application makes it: the id is the one derived from some clock
reading and the coordinates are a pair of finite numbers. -/
def Made (w : Item) : Prop :=
  (∃ now : Nat, w.id = .str (newId now)) ∧ ∃ p : ℚ × ℚ, w.base.coords = latLng p

/-- The stored value is absent or is the snapshot of a list with a given property. -/
def Snapshot (B : Browser) (stored : Option StoredText) (P : List Item → Prop) : Prop :=
  stored = none ∨ ∃ ws, stored = some (.json (.arr (ws.map (Item.toJSON B)))) ∧ P ws

/-- The ids of the registry entries, in order. -/
def registryIds (ms : List MarkerObj) : List JSVal := ms.map fun m => m.id

/-- The registry has, for an id, an entry holding a marker handle and a line handle. -/
def HasBoth (ms : List MarkerObj) (id : JSVal) : Prop :=
  ∃ m ∈ ms, m.id = id ∧ m.marker.isSome = true ∧ m.line.isSome = true

/-- How the registry stands after markers and lines were rendered for some ids: no id
is entered twice, the ids are the old ones and the rendered ones, entries that held
both handles still do, and every rendered id has an entry holding both. -/
def Rendered (old new : List MarkerObj) (ids : List JSVal) : Prop :=
  ((registryIds old).Nodup → (registryIds new).Nodup) ∧
  (∀ x, x ∈ registryIds new ↔ x ∈ registryIds old ∨ x ∈ ids) ∧
  (∀ j, HasBoth old j → HasBoth new j) ∧
  (∀ j ∈ ids, HasBoth new j)

/-- What holds of the list, the stored snapshot, the map and the registry in every
state of a run. -/
structure Inv (B : Browser) (s : AppState) : Prop where
  made : ∀ w ∈ s.workouts, Made w
  stored : Snapshot B s.storage fun ws => ∀ w ∈ ws, Made w
  noMap : s.map = none → s.markers = [] ∧ s.mapEvent = none
  user : s.map ≠ none → s.userCoords ≠ none
  regNodup : (registryIds s.markers).Nodup
  regSub : ∀ m ∈ s.markers, ∃ w ∈ s.workouts, w.id = m.id
  regAll : s.map ≠ none → ∀ w ∈ s.workouts, HasBoth s.markers w.id

/-- The controls panel exists, is shown only if the list is non-empty and, once the map
is there, is shown exactly when the list is non-empty. -/
def ControlsInv (s : AppState) : Prop :=
  ∃ hidden : Bool, s.sidebarControls = some hidden ∧
    (hidden = false → s.workouts ≠ []) ∧
    (s.map ≠ none → (hidden = false ↔ s.workouts ≠ []))

/-- No two workouts of the list share an id, and the same holds of the list whose
snapshot is stored. -/
def UniqueInv (B : Browser) (s : AppState) : Prop :=
  (s.workouts.map Item.id).Nodup ∧
  Snapshot B s.storage fun ws => (∀ w ∈ ws, Made w) ∧ (ws.map Item.id).Nodup

/-- If the event is a submission, the id derived from its clock reading differs from
the ids of the workouts in the list. -/
def freshAt (s : AppState) : Event → Bool
  | .submit clk => s.workouts.all fun w => !JSVal.strictEq w.id (.str (newId clk.now))
  | _ => true

/-- Every submission of a sequence of events happens at a clock reading whose id differs
from the ids of the workouts then in the list. -/
def freshIds (B : Browser) : AppState → List Event → Bool
  | _, [] => true
  | s, e :: es => freshAt s e && freshIds B (step B s e) es

/-! ## A sample browser -/

/-- The number written by a non-empty list of decimal digits. -/
def digitsValue (cs : List Char) : Option Nat :=
  if cs.all Char.isDigit && !cs.isEmpty then
    some (cs.foldl (fun a c => 10 * a + (c.toNat - 48)) 0)
  else none

/-- Number conversion of the sample browser: decimal integers and the empty text. -/
def sampleNumber (s : String) : JSNum :=
  match s.data with
  | [] => .fin 0
  | '-' :: cs =>
    match digitsValue cs with
    | some n => .fin (-(n : ℚ))
    | none => .nan
  | cs =>
    match digitsValue cs with
    | some n => .fin (n : ℚ)
    | none => .nan

/-- A number in decimal, padded with zeros on the left to a width. -/
def padded (width n : Nat) : String :=
  let ds := (toString n).data
  String.mk (List.replicate (width - ds.length) '0' ++ ds)

/-- The text `YYYY-MM-DDTHH:mm:ss.sssZ` of a time value (years 0 to 9999). -/
def isoString (t : Int) : String :=
  let c := civil (t / 86400000)
  let ms := (t % 86400000).toNat
  padded 4 c.1.toNat ++ "-" ++ padded 2 c.2.1.toNat ++ "-" ++ padded 2 c.2.2.toNat ++ "T" ++
    padded 2 (ms / 3600000) ++ ":" ++ padded 2 (ms / 60000 % 60) ++ ":" ++
    padded 2 (ms / 1000 % 60) ++ "." ++ padded 3 (ms % 1000) ++ "Z"

/-- The day, counted from 1970-01-01, of a year, month (1 to 12) and day of the month. -/
def daysFromCivil (y m d : Int) : Int :=
  let y1 := if m ≤ 2 then y - 1 else y
  let era := y1 / 400
  let yoe := y1 - era * 400
  let doy := (153 * (if 2 < m then m - 3 else m + 9) + 2) / 5 + d - 1
  era * 146097 + (yoe * 365 + yoe / 4 - yoe / 100 + doy) - 719468

/-- The time value of a text `YYYY-MM-DDTHH:mm:ss.sssZ`; other texts are invalid dates. -/
def isoParse (s : String) : Option Int :=
  let cs := s.data
  if cs.length = 24 && cs.get? 4 == some '-' && cs.get? 7 == some '-' &&
      cs.get? 10 == some 'T' && cs.get? 13 == some ':' && cs.get? 16 == some ':' &&
      cs.get? 19 == some '.' && cs.get? 23 == some 'Z' then
    match digitsValue (cs.take 4), digitsValue ((cs.drop 5).take 2),
      digitsValue ((cs.drop 8).take 2), digitsValue ((cs.drop 11).take 2),
      digitsValue ((cs.drop 14).take 2), digitsValue ((cs.drop 17).take 2),
      digitsValue ((cs.drop 20).take 3) with
    | some y, some m, some d, some h, some mi, some sec, some ms =>
      some (daysFromCivil y m d * 86400000 + h * 3600000 + mi * 60000 + sec * 1000 + ms)
    | _, _, _, _, _, _, _ => none
  else none

/-- Text of an array in the sample browser: the strings in it, joined by commas. -/
def sampleArrayText (xs : List JSVal) : String :=
  ",".intercalate (xs.map fun x =>
    match x with
    | .str s => s
    | _ => "")

/-- A browser for worked examples: UTC clock, decimal integers, ISO dates, a controls
panel that is served hidden; coordinates are accepted when they are a pair of finite
numbers, a selector is rejected when the id holds a double quote. -/
def sampleBrowser : Browser :=
  { stringToNumber := sampleNumber
    arrayToString := sampleArrayText
    localTZA := fun _ => 0
    toISOString := isoString
    dateParse := isoParse
    controlsMarkup := some true
    validLatLng := fun v =>
      match v with
      | .arr [.num (.fin _), .num (.fin _)] => true
      | _ => false
    entrySelectorFails := fun v =>
      match v with
      | .str s => s.data.any fun c => c == Char.ofNat 34
      | _ => false
    latLng_ok := fun _ _ => rfl
    selector_ok := by
      intro id h
      simp only [List.any_eq_false, List.all_eq_true] at h ⊢
      intro c hc hq
      have h1 := h c hc
      have h2 : c = Char.ofNat 34 := by simpa using hq
      subst h2
      exact absurd h1 (by decide) }

/-! ## Worked inputs -/

/-- A form opened by a map click and filled in for a ride with a negative elevation
gain, on a page whose map is loaded. -/
def rideForm : AppState :=
  { (_loadMap sampleBrowser (freshPage sampleBrowser none) (51, 0)).state with
    mapEvent := some (51, 0), formHidden := false, inputType := .cycling,
    inputDistance := "20", inputDuration := "60", inputElevation := "-5", handlers := true }

/-- A form opened by a map click and filled in with a negative distance. -/
def badForm : AppState :=
  { rideForm with inputDistance := "-1" }

/-- A first visit on 2024-01-31 on which one run is logged, and a second visit on
2024-02-01: the events, with clock readings in milliseconds. -/
def twoDays : List Event :=
  [.position (51, 0), .mapClick (52, 1), .edit .distance "5", .edit .duration "25",
   .edit .cadence "150", .submit ⟨1706700000000, 1706700000000⟩,
   .reload ⟨1706790000000, 1706790000000⟩]

/-- A first visit on 2023-11-14 on which a run is logged, and a visit on 2024-03-09 on
which another run is logged, ten thousand million milliseconds after the first. -/
def farApart : List Event :=
  [.position (51, 0), .mapClick (52, 1), .edit .distance "5", .edit .duration "25",
   .edit .cadence "150", .submit ⟨1700000000000, 1700000000000⟩,
   .reload ⟨1709999990000, 1709999990000⟩, .position (51, 0),
   .mapClick (53, 2), .edit .distance "6", .edit .duration "30",
   .edit .cadence "160", .submit ⟨1710000000000, 1710000000000⟩]

/-- A first visit on which a run and a ride are logged a minute apart. -/
def twoSubmissions : List Event :=
  [.position (51, 0), .mapClick (52, 1), .edit .distance "5", .edit .duration "25",
   .edit .cadence "150", .submit ⟨1706700000000, 1706700000000⟩,
   .mapClick (53, 2), .selectType .cycling, .edit .distance "20", .edit .duration "60",
   .edit .elevation "-5", .submit ⟨1706700060000, 1706700060000⟩]

/-- A state holding one run and one ride, as two accepted submissions leave it. -/
def twoWorkouts : AppState :=
  run sampleBrowser ⟨1706690000000, 1706690000000⟩ twoSubmissions

/-! ## Theorems -/

/-! ### Steps that keep the list -/

theorem renderMarker_workouts (B : Browser) (s : AppState) (w : Item) :
    (_renderWorkoutMarker B s w).state.workouts = s.workouts := by
  unfold _renderWorkoutMarker
  split
  · rfl
  · split <;> rfl

theorem renderLine_workouts (B : Browser) (s : AppState) (w : Item) :
    (_renderConnectionLine B s w).state.workouts = s.workouts := by
  unfold _renderConnectionLine
  split
  · split <;> rfl
  · rfl

theorem andThen_workouts (o : Outcome) (f : AppState → Outcome) (l : List Item)
    (ho : o.state.workouts = l) (hf : ∀ s, s.workouts = l → (f s).state.workouts = l) :
    (o.andThen f).state.workouts = l := by
  unfold Outcome.andThen
  split
  · exact hf _ ho
  · exact ho

theorem addWorkout_workouts (B : Browser) (s : AppState) (w : Item) :
    (addWorkout B s w).state.workouts = s.workouts ++ [w] := by
  unfold addWorkout
  apply andThen_workouts
  · apply andThen_workouts
    · rw [renderMarker_workouts]
    · intro s2 h2
      rw [renderLine_workouts, h2]
  · intro s3 h3
    simpa [_showControls, _setLocalStorage, _hideForm] using h3

/-! ### C6 -/

/-- C6: a constructed Running has type "running" and pace = duration / distance, and a
constructed Cycling has type "cycling" and speed = distance / (duration / 60), for every
coordinate value, every positive distance and duration and every cadence and elevation
gain (positive or not); a run of distance 5 and duration 25 has pace 5. -/
theorem C6_pace_and_speed (B : Browser) (clk : Clock) (coords cadence elevationGain : JSVal)
    (distance duration : ℚ) (hd : 0 < distance) (ht : 0 < duration) :
    (Item.running (Running.new B clk coords (.num (.fin distance)) (.num (.fin duration))
        cadence)).type = "running" ∧
    (Running.new B clk coords (.num (.fin distance)) (.num (.fin duration)) cadence).pace
      = .fin (duration / distance) ∧
    (Item.cycling (Cycling.new B clk coords (.num (.fin distance)) (.num (.fin duration))
        elevationGain)).type = "cycling" ∧
    (Cycling.new B clk coords (.num (.fin distance)) (.num (.fin duration))
        elevationGain).speed = .fin (distance / (duration / 60)) ∧
    (Running.new B clk coords (.num (.fin 5)) (.num (.fin 25)) cadence).pace = .fin 5 := by
  have hd0 : distance ≠ 0 := ne_of_gt hd
  have ht0 : duration / 60 ≠ 0 := by positivity
  refine ⟨rfl, ?_, rfl, ?_, ?_⟩
  · simp [Running.new, calcPace, ToNumber, JSNum.div, hd0]
  · simp [Cycling.new, calcSpeed, ToNumber, JSNum.div, ht0]
  · norm_num [Running.new, calcPace, ToNumber, JSNum.div]

/-- C6 at a run of 10 km in 50 minutes at cadence 150 and a ride of the same length. -/
theorem C6_pace_and_speed_witness :
    (Running.new sampleBrowser ⟨0, 0⟩ (latLng (51, 0)) (.num (.fin 10)) (.num (.fin 50))
        (.num (.fin 150))).pace = .fin (50 / 10) ∧
    (Cycling.new sampleBrowser ⟨0, 0⟩ (latLng (51, 0)) (.num (.fin 10)) (.num (.fin 50))
        (.num (.fin 150))).speed = .fin (10 / (50 / 60)) :=
  have h := C6_pace_and_speed sampleBrowser ⟨0, 0⟩ (latLng (51, 0)) (.num (.fin 150))
    (.num (.fin 150)) 10 50 (by norm_num) (by norm_num)
  ⟨h.2.1, h.2.2.2.1⟩

/-! ### C1 and C2 -/

theorem accepted_iff_running (B : Browser) (s : AppState) (h : s.inputType = .running) :
    Accepted B s ↔
      (!validInputs [B.stringToNumber s.inputDistance, B.stringToNumber s.inputDuration,
          B.stringToNumber s.inputCadence] ||
        !allPositive [B.stringToNumber s.inputDistance, B.stringToNumber s.inputDuration,
          B.stringToNumber s.inputCadence]) = false := by
  simp only [Accepted, extraInput, h, validInputs, allPositive, List.all_cons, List.all_nil,
    Bool.and_true, Bool.or_eq_false_iff, Bool.not_eq_false', Bool.and_eq_true, forall_true_left]
  tauto

theorem accepted_iff_cycling (B : Browser) (s : AppState) (h : s.inputType = .cycling) :
    Accepted B s ↔
      (!validInputs [B.stringToNumber s.inputDistance, B.stringToNumber s.inputDuration,
          B.stringToNumber s.inputElevation] ||
        !allPositive [B.stringToNumber s.inputDistance, B.stringToNumber s.inputDuration])
        = false := by
  simp only [Accepted, extraInput, h, validInputs, allPositive, List.all_cons, List.all_nil,
    Bool.and_true, Bool.or_eq_false_iff, Bool.not_eq_false', Bool.and_eq_true]
  constructor
  · rintro ⟨a, b, c, d, e, -⟩
    exact ⟨⟨a, b, c⟩, d, e⟩
  · rintro ⟨⟨a, b, c⟩, d, e⟩
    exact ⟨a, b, c, d, e, fun h => by cases h⟩

/-- The object a submission builds when it is accepted. -/
theorem newWorkout_accepted (B : Browser) (clk : Clock) (s : AppState) (latlng : ℚ × ℚ)
    (hform : s.mapEvent = some latlng) (h : Accepted B s) :
    ∃ w : Item, _newWorkout B clk s = addWorkout B s w ∧ w.id = .str (newId clk.now) ∧
      w.base.coords = latLng latlng := by
  unfold _newWorkout
  rw [hform]
  cases ht : s.inputType with
  | running =>
    have hc := (accepted_iff_running B s ht).mp h
    simp only [hc]
    exact ⟨_, rfl, rfl, rfl⟩
  | cycling =>
    have hc := (accepted_iff_cycling B s ht).mp h
    simp only [hc]
    exact ⟨_, rfl, rfl, rfl⟩

/-- A submission that is not accepted changes nothing. -/
theorem newWorkout_rejected (B : Browser) (clk : Clock) (s : AppState) (h : ¬ Accepted B s) :
    (_newWorkout B clk s).state = s ∧
      (s.mapEvent ≠ none →
        (_newWorkout B clk s).signal = .alert "Inputs must be positive numbers!") := by
  unfold _newWorkout
  cases hform : s.mapEvent with
  | none => exact ⟨rfl, fun h => absurd rfl h⟩
  | some latlng =>
    cases ht : s.inputType with
    | running =>
      simp only []
      split
      · exact ⟨rfl, fun _ => rfl⟩
      · rename_i hc
        exact absurd ((accepted_iff_running B s ht).mpr (Bool.eq_false_iff.mpr hc)) h
    | cycling =>
      simp only []
      split
      · exact ⟨rfl, fun _ => rfl⟩
      · rename_i hc
        exact absurd ((accepted_iff_cycling B s ht).mpr (Bool.eq_false_iff.mpr hc)) h

/-- C1: for a form opened by a map click, with either activity type and whatever numbers
the three fields convert to, `_newWorkout` appends a workout to the list exactly when
the three numbers are finite, distance and duration are positive and, for running,
cadence is positive; otherwise the list is as before.  The sign of a ride's elevation
gain plays no part. -/
theorem C1_newWorkout_adds_iff_valid (B : Browser) (clk : Clock) (s : AppState)
    (latlng : ℚ × ℚ) (hform : s.mapEvent = some latlng) :
    ((∃ w : Item, (_newWorkout B clk s).state.workouts = s.workouts ++ [w]) ↔ Accepted B s) ∧
    (¬ Accepted B s → (_newWorkout B clk s).state.workouts = s.workouts) := by
  have hrej : ¬ Accepted B s → (_newWorkout B clk s).state.workouts = s.workouts :=
    fun h => by rw [(newWorkout_rejected B clk s h).1]
  refine ⟨⟨?_, ?_⟩, hrej⟩
  · rintro ⟨w, hw⟩
    by_contra hna
    rw [hrej hna] at hw
    have := congrArg List.length hw
    simp at this
  · intro h
    obtain ⟨w, hw, -⟩ := newWorkout_accepted B clk s latlng hform h
    exact ⟨w, by rw [hw, addWorkout_workouts]⟩

/-- C1 at a ride of 20 km in 60 minutes with elevation gain -5: it is accepted. -/
theorem C1_newWorkout_adds_iff_valid_witness :
    ∃ w : Item, (_newWorkout sampleBrowser ⟨0, 0⟩ rideForm).state.workouts
      = rideForm.workouts ++ [w] :=
  (C1_newWorkout_adds_iff_valid sampleBrowser ⟨0, 0⟩ rideForm (51, 0) rfl).1.mpr
    ⟨by decide, by decide, by decide, by decide, by decide, by decide⟩

/-- C2: a rejected submission leaves the whole state as it was, in every state: the list,
the marker registry and the stored snapshot are unchanged, the form keeps its visibility
and its field values; when the form had been opened by a map click the user is alerted. -/
theorem C2_rejected_submission_changes_nothing (B : Browser) (clk : Clock) (s : AppState)
    (h : ¬ Accepted B s) :
    (_newWorkout B clk s).state = s ∧
    (_newWorkout B clk s).state.workouts = s.workouts ∧
    (_newWorkout B clk s).state.markers = s.markers ∧
    (_newWorkout B clk s).state.storage = s.storage ∧
    (_newWorkout B clk s).state.formHidden = s.formHidden ∧
    (_newWorkout B clk s).state.inputDistance = s.inputDistance ∧
    (_newWorkout B clk s).state.inputDuration = s.inputDuration ∧
    (_newWorkout B clk s).state.inputCadence = s.inputCadence ∧
    (_newWorkout B clk s).state.inputElevation = s.inputElevation ∧
    (s.mapEvent ≠ none →
      (_newWorkout B clk s).signal = .alert "Inputs must be positive numbers!") := by
  obtain ⟨h1, h2⟩ := newWorkout_rejected B clk s h
  rw [h1]
  exact ⟨rfl, rfl, rfl, rfl, rfl, rfl, rfl, rfl, rfl, h2⟩

/-- C2 at an open form holding distance -1: the state is unchanged and the form is
still open. -/
theorem C2_rejected_submission_changes_nothing_witness :
    (_newWorkout sampleBrowser ⟨0, 0⟩ badForm).state.workouts = badForm.workouts ∧
    (_newWorkout sampleBrowser ⟨0, 0⟩ badForm).state.formHidden = false ∧
    (_newWorkout sampleBrowser ⟨0, 0⟩ badForm).state.inputDistance = "-1" :=
  have h := C2_rejected_submission_changes_nothing sampleBrowser ⟨0, 0⟩ badForm
    (fun a => absurd a.2.2.2.1 (by decide))
  ⟨h.2.1, h.2.2.2.2.1, h.2.2.2.2.2.1⟩

/-! ### C4 -/

/-- C4 as stated fails: on a stored text that is not JSON the load ends by an uncaught
exception, and so it does on a stored JSON object. -/
theorem C4_unparsable_snapshot_throws :
    (_getLocalStorage sampleBrowser ⟨0, 0⟩
        (freshPage sampleBrowser (some .malformed))).signal ≠ .done ∧
    (_getLocalStorage sampleBrowser ⟨0, 0⟩
        (freshPage sampleBrowser (some .malformed))).signal = .throws .parseError ∧
    (_getLocalStorage sampleBrowser ⟨0, 0⟩
        (freshPage sampleBrowser (some (.json (.obj []))))).signal = .throws .typeError :=
  ⟨by decide, rfl, rfl⟩

theorem revive_not_record (B : Browser) (clk : Clock) (x : JSVal) (h : isRecord x = false) :
    revive B clk x = if isNullish x then .error .typeError else .ok none := by
  simp only [isRecord, Bool.or_eq_false_iff] at h
  cases x <;> simp [revive, isNullish, h.1, h.2]

theorem reviveAll_no_records (B : Browser) (clk : Clock) (xs : List JSVal)
    (h : ∀ x ∈ xs, isRecord x = false) :
    reviveAll B clk xs = if xs.any isNullish then .error .typeError else .ok [] := by
  induction xs with
  | nil => rfl
  | cons x xs ih =>
    have hx := revive_not_record B clk x (h x (List.mem_cons_self x xs))
    have hxs := ih fun y hy => h y (List.mem_cons_of_mem x hy)
    unfold reviveAll
    rw [hx, hxs, List.any_cons]
    cases isNullish x <;> cases xs.any isNullish <;> rfl

/-- C4, amended: when the stored value is absent, is not JSON, or is JSON that is not an
array or is an array without a record of type running or cycling, `_getLocalStorage`
leaves the list of a starting application empty; it ends silently when the value is
absent, is falsy (`null`, `false`, `0`, the empty string) or is an array without
`null` elements, by an uncaught SyntaxError when the text is not JSON, and by an
uncaught TypeError on every other value. -/
theorem C4_load_of_absent_or_unparsable (B : Browser) (clk : Clock) (s : AppState)
    (hlist : s.workouts = []) (h : NoRecords s.storage) :
    (_getLocalStorage B clk s).state.workouts = [] ∧
    (_getLocalStorage B clk s).signal = loadSignal s.storage ∧
    (s.storage = none → (_getLocalStorage B clk s).signal = .done) ∧
    (s.storage = some .malformed →
      (_getLocalStorage B clk s).signal = .throws .parseError) := by
  have key : (_getLocalStorage B clk s).state.workouts = [] ∧
      (_getLocalStorage B clk s).signal = loadSignal s.storage := by
    unfold _getLocalStorage
    cases hst : s.storage with
    | none => simp [parseStored, JSVal.truthy, loadSignal, hlist]
    | some t =>
      cases t with
      | malformed => simp [parseStored, loadSignal, hlist]
      | json v =>
        cases v with
        | arr xs =>
          rw [hst] at h
          simp only [parseStored, JSVal.truthy, loadSignal, reviveAll_no_records B clk xs h]
          cases xs.any isNullish <;> simp [hlist]
        | undefined => simp [parseStored, JSVal.truthy, loadSignal, hlist]
        | null => simp [parseStored, JSVal.truthy, loadSignal, hlist]
        | bool b => cases b <;> simp [parseStored, JSVal.truthy, loadSignal, hlist]
        | num n =>
          cases hn : n.truthy <;>
            simp [parseStored, JSVal.truthy, loadSignal, hlist, hn]
        | str x =>
          cases hx : (x != "") <;>
            simp [parseStored, JSVal.truthy, loadSignal, hlist, hx]
        | obj ps => simp [parseStored, JSVal.truthy, loadSignal, hlist]
  refine ⟨key.1, key.2, fun h0 => ?_, fun h0 => ?_⟩
  · rw [key.2, h0]
    rfl
  · rw [key.2, h0]
    rfl

/-- C4, amended, at a page with nothing stored: the load is silent and the list is
empty. -/
theorem C4_load_of_absent_or_unparsable_witness :
    (_getLocalStorage sampleBrowser ⟨0, 0⟩ (freshPage sampleBrowser none)).state.workouts = [] ∧
    (_getLocalStorage sampleBrowser ⟨0, 0⟩ (freshPage sampleBrowser none)).signal = .done :=
  have h := C4_load_of_absent_or_unparsable sampleBrowser ⟨0, 0⟩ (freshPage sampleBrowser none)
    rfl trivial
  ⟨h.1, h.2.2.1 rfl⟩

/-! ### C7 -/

/-- The description of a newly built object is the one of its own date. -/
theorem new_description (B : Browser) (clk : Clock) (coords distance duration extra : JSVal) :
    (Running.new B clk coords distance duration extra).description
      = _setDescription B "running" clk.date ∧
    (Running.new B clk coords distance duration extra).date = some (clk.date : Int) ∧
    (Cycling.new B clk coords distance duration extra).description
      = _setDescription B "cycling" clk.date ∧
    (Cycling.new B clk coords distance duration extra).date = some (clk.date : Int) :=
  ⟨rfl, rfl, rfl, rfl⟩

/-- C7 fails on the code: a run logged on 2024-01-31 and revived by a visit on 2024-02-01
carries the date of January 31 and the description of February 1. -/
theorem C7_revived_description_is_of_load_day :
    (run sampleBrowser ⟨1706690000000, 1706690000000⟩ twoDays).workouts.map
        (fun w => (w.type, w.base.date, w.base.description))
      = [("running", some 1706700000000, "Running on February 1")] ∧
    _setDescription sampleBrowser "running" 1706700000000 = "Running on January 31" :=
  ⟨by decide, by decide⟩

/-! ### Saving and loading -/

theorem toJSONProps_nil : toJSONProps [] = [] := by
  rw [toJSONProps]

theorem toJSONProps_cons_none (k : String) (v : JSVal) (ps : List (String × JSVal))
    (h : v.toJSON = none) : toJSONProps ((k, v) :: ps) = toJSONProps ps := by
  rw [toJSONProps, h]

theorem toJSONProps_cons_some (k : String) (v j : JSVal) (ps : List (String × JSVal))
    (h : v.toJSON = some j) : toJSONProps ((k, v) :: ps) = (k, j) :: toJSONProps ps := by
  rw [toJSONProps, h]

theorem lookup_toJSONProps_cons (k k1 : String) (v : JSVal) (ps : List (String × JSVal)) :
    List.lookup k (toJSONProps ((k1, v) :: ps))
      = if k = k1 then (v.toJSON).or (List.lookup k (toJSONProps ps))
        else List.lookup k (toJSONProps ps) := by
  cases hv : v.toJSON with
  | none =>
    rw [toJSONProps_cons_none k1 v ps hv]
    by_cases hk : k = k1 <;> simp [hk]
  | some j =>
    rw [toJSONProps_cons_some k1 v j ps hv]
    by_cases hk : k = k1
    · simp [hk, List.lookup]
    · have : (k == k1) = false := by simpa using hk
      simp [hk, List.lookup, this]

theorem stored_str (i : String) : (JSVal.str i).stored = .str i := rfl

theorem stored_fin (q : ℚ) : (JSVal.num (.fin q)).stored = .num (.fin q) := rfl

theorem stored_latLng (p : ℚ × ℚ) : (latLng p).stored = latLng p := rfl

theorem stored_dateJSON (B : Browser) (d : Option Int) :
    (dateJSON B d).toJSON = some (dateJSON B d) := by
  cases d <;> rfl

/-- The stored form of a value is a given string only if the value is that string. -/
theorem stored_eq_str (v : JSVal) (i : String) (h : v.stored = .str i) : v = .str i := by
  cases v with
  | str x => simpa [JSVal.stored, JSVal.toJSON] using h
  | num n => cases n <;> simp [JSVal.stored, JSVal.toJSON, JSNum.isFinite] at h
  | undefined => simp [JSVal.stored, JSVal.toJSON] at h
  | null => simp [JSVal.stored, JSVal.toJSON] at h
  | bool b => simp [JSVal.stored, JSVal.toJSON] at h
  | arr xs => simp [JSVal.stored, JSVal.toJSON] at h
  | obj ps => simp [JSVal.stored, JSVal.toJSON] at h

/-- Reviving the snapshot of an object. -/
theorem revive_toJSON (B : Browser) (clk : Clock) (w : Item) :
    revive B clk (w.toJSON B) = .ok (some (reloaded B clk w)) := by
  cases w with
  | running r =>
    simp [revive, Item.toJSON, Item.props, JSVal.get, lookup_toJSONProps_cons,
      toJSONProps_nil, JSVal.toJSON, stored_dateJSON, JSVal.strictEq, reloaded, Item.restore,
      JSVal.stored, Running.new]
  | cycling c =>
    simp [revive, Item.toJSON, Item.props, JSVal.get, lookup_toJSONProps_cons,
      toJSONProps_nil, JSVal.toJSON, stored_dateJSON, JSVal.strictEq, reloaded, Item.restore,
      JSVal.stored, Cycling.new]

theorem reviveAll_toJSON (B : Browser) (clk : Clock) (ws : List Item) :
    reviveAll B clk (ws.map (Item.toJSON B)) = .ok (ws.map (reloaded B clk)) := by
  induction ws with
  | nil => rfl
  | cons w ws ih =>
    simp only [List.map_cons]
    unfold reviveAll
    rw [revive_toJSON, ih]
    rfl

/-- Loading a snapshot that `_setLocalStorage` wrote for a list. -/
theorem load_saved (B : Browser) (clk : Clock) (t : AppState) (ws : List Item)
    (h : t.storage = some (.json (.arr (ws.map (Item.toJSON B))))) :
    _getLocalStorage B clk t = ⟨{ t with workouts := ws.map (reloaded B clk) }, .done⟩ := by
  unfold _getLocalStorage
  rw [h]
  simp [parseStored, JSVal.truthy, reviveAll_toJSON]

theorem stored_of_isStr (v : JSVal) (h : v.isStr = true) : v.stored = v := by
  cases v <;> simp_all [JSVal.isStr, JSVal.stored, JSVal.toJSON]

theorem stored_of_isFiniteNum (v : JSVal) (h : v.isFiniteNum = true) : v.stored = v := by
  cases v with
  | num n => cases n <;> simp_all [JSVal.isFiniteNum, JSVal.stored, JSVal.toJSON, JSNum.isFinite]
  | _ => simp_all [JSVal.isFiniteNum]

theorem stored_of_isLatLng (v : JSVal) (h : v.isLatLng = true) : v.stored = v := by
  unfold JSVal.isLatLng at h
  split at h
  · rfl
  · cases h

theorem reloaded_id (B : Browser) (clk : Clock) (w : Item) :
    (reloaded B clk w).id = w.id.stored := by
  cases w <;> rfl

theorem reloaded_coords (B : Browser) (clk : Clock) (w : Item) :
    (reloaded B clk w).base.coords = w.base.coords.stored := by
  cases w <;> rfl

theorem reloaded_sameData (B : Browser) (clk : Clock) (w : Item) (h : WellFormed w) :
    SameData B w (reloaded B clk w) := by
  obtain ⟨h1, h2, h3, h4, h5, h6⟩ := h
  cases w with
  | running r =>
    have e1 := stored_of_isStr _ h1
    have e2 := stored_of_isLatLng _ h2
    have e3 := stored_of_isFiniteNum _ h3
    have e4 := stored_of_isFiniteNum _ h4
    have e5 := stored_of_isFiniteNum _ h5
    have e6 := stored_of_isFiniteNum _ h6
    simp only [Item.id, Item.base, Item.extra] at e1 e2 e3 e4 e5 e6
    have hm : (reloaded B clk (.running r)).metric = (Item.running r).derived B := by
      simp [reloaded, Item.metric, Item.derived, Running.new, e3, e4]
    refine ⟨rfl, ?_, ?_, ?_, ?_, ?_, ?_, hm, fun hc => by rw [hm, hc]⟩ <;>
      simp [reloaded, Item.id, Item.base, Item.extra, Running.new, e1, e2, e3, e4, e5, e6]
  | cycling c =>
    have e1 := stored_of_isStr _ h1
    have e2 := stored_of_isLatLng _ h2
    have e3 := stored_of_isFiniteNum _ h3
    have e4 := stored_of_isFiniteNum _ h4
    have e5 := stored_of_isFiniteNum _ h5
    have e6 := stored_of_isFiniteNum _ h6
    simp only [Item.id, Item.base, Item.extra] at e1 e2 e3 e4 e5 e6
    have hm : (reloaded B clk (.cycling c)).metric = (Item.cycling c).derived B := by
      simp [reloaded, Item.metric, Item.derived, Cycling.new, e3, e4]
    refine ⟨rfl, ?_, ?_, ?_, ?_, ?_, ?_, hm, fun hc => by rw [hm, hc]⟩ <;>
      simp [reloaded, Item.id, Item.base, Item.extra, Cycling.new, e1, e2, e3, e4, e5, e6]

/-! ### C3 -/

/-- C3: for every list of workouts (each a run or a ride) whose id is a string and whose
coordinates, distance, duration, click count and extra are finite numbers, saving the
list with `_setLocalStorage` and loading it with `_getLocalStorage` (in any state that
holds the saved snapshot, at any clock reading) succeeds and yields a list of the same
length in the same order in which each workout has the type, id, coordinates, distance,
duration, click count and extra of the original, and the pace or speed computed from
the original's duration and distance, which is the original's own pace or speed
whenever that was so computed. -/
theorem C3_save_load_round_trip (B : Browser) (clk : Clock) (s t : AppState)
    (hwf : ∀ w ∈ s.workouts, WellFormed w)
    (ht : t.storage = (_setLocalStorage B s).storage) :
    (_getLocalStorage B clk t).signal = .done ∧
    (_getLocalStorage B clk t).state.workouts.length = s.workouts.length ∧
    List.Forall₂ (SameData B) s.workouts (_getLocalStorage B clk t).state.workouts := by
  rw [load_saved B clk t s.workouts ht]
  refine ⟨rfl, by simp, ?_⟩
  simp only []
  rw [List.forall₂_map_right_iff]
  exact List.forall₂_same.mpr fun w hw => reloaded_sameData B clk w (hwf w hw)

/-- C3 at a list of one run and one ride. -/
theorem C3_save_load_round_trip_witness :
    (∀ w ∈ twoWorkouts.workouts, WellFormed w) ∧
    (_getLocalStorage sampleBrowser ⟨1706790000000, 1706790000000⟩
      (_setLocalStorage sampleBrowser twoWorkouts)).state.workouts.length
        = twoWorkouts.workouts.length :=
  ⟨by decide,
    (C3_save_load_round_trip sampleBrowser ⟨1706790000000, 1706790000000⟩ twoWorkouts
      (_setLocalStorage sampleBrowser twoWorkouts) (by decide) rfl).2.1⟩

/-! ### C5 -/

theorem strictEq_str (v : JSVal) (i : String) :
    JSVal.strictEq v (.str i) = true ↔ v = .str i := by
  cases v <;> simp [JSVal.strictEq]

theorem filter_markers_of_find_none (ms : List MarkerObj) (id : JSVal)
    (h : ms.find? (fun m => JSVal.strictEq m.id id) = none) :
    ms.filter (fun m => !JSVal.strictEq m.id id) = ms := by
  rw [List.filter_eq_self]
  intro m hm
  have := List.find?_eq_none.mp h m hm
  simpa using this

/-- What a confirmed `_deleteWorkout` does in a state whose registry is empty as long as
there is no map. -/
theorem deleteWorkout_confirmed (B : Browser) (s : AppState) (id : JSVal)
    (hmap : s.map = none → s.markers = []) :
    ∃ m1 : Option LMap, m1.isSome = s.map.isSome ∧
      _deleteWorkout B s id true =
        if B.entrySelectorFails id = true then ⟨afterRemoval s id m1, .throws .selector⟩
        else
          ⟨if (afterRemoval s id m1).workouts.length = 0 then
              _hideControls (_setLocalStorage B (afterRemoval s id m1))
            else _setLocalStorage B (afterRemoval s id m1), .done⟩ := by
  unfold _deleteWorkout
  simp only [Bool.not_true, Bool.false_eq_true, if_false]
  cases hfind : s.markers.find? (fun m => JSVal.strictEq m.id id) with
  | none =>
    refine ⟨s.map, rfl, ?_⟩
    simp only [Outcome.andThen, afterRemoval, filter_markers_of_find_none s.markers id hfind]
    rfl
  | some mo =>
    cases hm : s.map with
    | none =>
      rw [hmap hm] at hfind
      simp at hfind
    | some m =>
      refine ⟨some (removeLayers m mo), rfl, ?_⟩
      simp only [Outcome.andThen, afterRemoval]
      rfl

/-- C5: in every state whose registry is empty as long as there is no map, and for every
id for which the DOM accepts the list-entry selector, after a confirmed
`_deleteWorkout(id)` the list holds no workout with that id, the registry holds no
entry with that id, the list is the old list without the workouts of that id (every
other workout is kept, in the original order), the stored snapshot is the
serialization of the resulting list, and a load of that snapshot, in any state and at
any clock reading, succeeds and yields no workout with that id. -/
theorem C5_delete_removes_everywhere (B : Browser) (s : AppState) (id : String)
    (hmap : s.map = none → s.markers = [])
    (hsel : B.entrySelectorFails (.str id) = false) :
    (_deleteWorkout B s (.str id) true).signal = .done ∧
    (∀ w ∈ (_deleteWorkout B s (.str id) true).state.workouts, w.id ≠ .str id) ∧
    (∀ m ∈ (_deleteWorkout B s (.str id) true).state.markers, m.id ≠ .str id) ∧
    (_deleteWorkout B s (.str id) true).state.workouts
      = s.workouts.filter (fun w => !JSVal.strictEq w.id (.str id)) ∧
    (∀ w ∈ s.workouts, w.id ≠ .str id →
      w ∈ (_deleteWorkout B s (.str id) true).state.workouts) ∧
    List.Sublist (_deleteWorkout B s (.str id) true).state.workouts s.workouts ∧
    (_deleteWorkout B s (.str id) true).state.storage
      = some (.json (.arr ((_deleteWorkout B s (.str id) true).state.workouts.map
          (Item.toJSON B)))) ∧
    (∀ (clk : Clock) (t : AppState),
      t.storage = (_deleteWorkout B s (.str id) true).state.storage →
      (_getLocalStorage B clk t).signal = .done ∧
      ∀ w ∈ (_getLocalStorage B clk t).state.workouts, w.id ≠ .str id) := by
  obtain ⟨m1, -, hdel⟩ := deleteWorkout_confirmed B s (.str id) hmap
  have hw : (_deleteWorkout B s (.str id) true).state.workouts
      = s.workouts.filter (fun w => !JSVal.strictEq w.id (.str id)) := by
    rw [hdel, hsel]
    simp only [Bool.false_eq_true, if_false]
    split <;> rfl
  have hm : (_deleteWorkout B s (.str id) true).state.markers
      = s.markers.filter (fun m => !JSVal.strictEq m.id (.str id)) := by
    rw [hdel, hsel]
    simp only [Bool.false_eq_true, if_false]
    split <;> rfl
  have hst : (_deleteWorkout B s (.str id) true).state.storage
      = some (.json (.arr ((_deleteWorkout B s (.str id) true).state.workouts.map
          (Item.toJSON B)))) := by
    rw [hdel, hsel]
    simp only [Bool.false_eq_true, if_false]
    split <;> rfl
  have hno : ∀ w ∈ (_deleteWorkout B s (.str id) true).state.workouts, w.id ≠ .str id := by
    intro w hmem heq
    rw [hw, List.mem_filter] at hmem
    have := (strictEq_str w.id id).mpr heq
    simp [this] at hmem
  refine ⟨?_, hno, ?_, hw, ?_, ?_, hst, ?_⟩
  · rw [hdel, hsel]
    rfl
  · intro m hmem heq
    rw [hm, List.mem_filter] at hmem
    have := (strictEq_str m.id id).mpr heq
    simp [this] at hmem
  · intro w hmem hne
    rw [hw, List.mem_filter]
    refine ⟨hmem, ?_⟩
    cases hc : JSVal.strictEq w.id (.str id)
    · rfl
    · exact absurd ((strictEq_str w.id id).mp hc) hne
  · rw [hw]
    exact List.filter_sublist _
  · intro clk t ht
    rw [hst] at ht
    rw [load_saved B clk t _ ht]
    refine ⟨rfl, ?_⟩
    intro w hmem heq
    simp only [List.mem_map] at hmem
    obtain ⟨w0, hw0, rfl⟩ := hmem
    rw [reloaded_id] at heq
    exact hno w0 hw0 (stored_eq_str _ _ heq)

/-- C5 at the state holding one run and one ride, deleting the run. -/
theorem C5_delete_removes_everywhere_witness :
    (_deleteWorkout sampleBrowser twoWorkouts (.str "6700000000") true).signal = .done ∧
    ((_deleteWorkout sampleBrowser twoWorkouts (.str "6700000000") true).state.workouts.map
      Item.type) = ["cycling"] :=
  have h := C5_delete_removes_everywhere sampleBrowser twoWorkouts "6700000000"
    (fun h => absurd (congrArg Option.isSome h) (by decide)) rfl
  ⟨h.1, by rw [h.2.2.2.1]; decide⟩

/-! ### The registry -/

theorem strictEq_str_left (i : String) (v : JSVal) :
    JSVal.strictEq (.str i) v = true ↔ v = .str i := by
  cases v with
  | str x =>
    simp only [JSVal.strictEq, beq_iff_eq, JSVal.str.injEq]
    exact eq_comm
  | _ => simp [JSVal.strictEq]

theorem registryIds_upsert_of_mem (set : MarkerObj → MarkerObj) (hset : ∀ m, (set m).id = m.id)
    (i : String) (ms : List MarkerObj) (h : JSVal.str i ∈ registryIds ms) :
    registryIds (upsert set (.str i) ms) = registryIds ms := by
  induction ms with
  | nil => simp [registryIds] at h
  | cons m ms ih =>
    unfold upsert
    by_cases hm : JSVal.strictEq m.id (.str i) = true
    · simp [hm, registryIds, hset]
    · simp only [hm, if_false, Bool.false_eq_true]
      have hne : m.id ≠ .str i := fun e => hm ((strictEq_str m.id i).mpr e)
      have h1 : JSVal.str i ∈ registryIds ms := by
        simp only [registryIds, List.map_cons, List.mem_cons] at h
        rcases h with h | h
        · exact absurd h.symm hne
        · exact h
      have := ih h1
      simp only [registryIds, List.map_cons] at this ⊢
      rw [this]

theorem registryIds_upsert_of_not_mem (set : MarkerObj → MarkerObj)
    (hset : ∀ m, (set m).id = m.id) (i : String) (ms : List MarkerObj)
    (h : JSVal.str i ∉ registryIds ms) :
    registryIds (upsert set (.str i) ms) = registryIds ms ++ [.str i] := by
  induction ms with
  | nil => simp [upsert, registryIds, hset]
  | cons m ms ih =>
    unfold upsert
    simp only [registryIds, List.map_cons, List.mem_cons, not_or] at h
    have hm : JSVal.strictEq m.id (.str i) = false := by
      cases hc : JSVal.strictEq m.id (.str i)
      · rfl
      · exact absurd ((strictEq_str m.id i).mp hc).symm h.1
    simp only [hm, if_false, Bool.false_eq_true]
    have := ih h.2
    simp only [registryIds, List.map_cons, List.cons_append] at this ⊢
    rw [this]

theorem mem_registryIds_upsert (set : MarkerObj → MarkerObj) (hset : ∀ m, (set m).id = m.id)
    (i : String) (ms : List MarkerObj) (x : JSVal) :
    x ∈ registryIds (upsert set (.str i) ms) ↔ x ∈ registryIds ms ∨ x = .str i := by
  by_cases h : JSVal.str i ∈ registryIds ms
  · rw [registryIds_upsert_of_mem set hset i ms h]
    constructor
    · exact Or.inl
    · rintro (hx | hx)
      · exact hx
      · rw [hx]
        exact h
  · rw [registryIds_upsert_of_not_mem set hset i ms h]
    simp

theorem nodup_registryIds_upsert (set : MarkerObj → MarkerObj)
    (hset : ∀ m, (set m).id = m.id) (i : String) (ms : List MarkerObj)
    (hnd : (registryIds ms).Nodup) : (registryIds (upsert set (.str i) ms)).Nodup := by
  by_cases h : JSVal.str i ∈ registryIds ms
  · rw [registryIds_upsert_of_mem set hset i ms h]
    exact hnd
  · rw [registryIds_upsert_of_not_mem set hset i ms h]
    exact List.Nodup.append hnd (List.nodup_singleton _) (by simpa using h)

theorem hasBoth_upsert (set : MarkerObj → MarkerObj) (hset : ∀ m, (set m).id = m.id)
    (hkeep : ∀ m, m.marker.isSome = true → m.line.isSome = true →
      (set m).marker.isSome = true ∧ (set m).line.isSome = true)
    (id : JSVal) (ms : List MarkerObj) (j : JSVal) (h : HasBoth ms j) :
    HasBoth (upsert set id ms) j := by
  induction ms with
  | nil =>
    obtain ⟨m, hm, -⟩ := h
    simp at hm
  | cons m ms ih =>
    obtain ⟨m0, hm0, hid, h1, h2⟩ := h
    unfold upsert
    by_cases hc : JSVal.strictEq m.id id = true
    · simp only [hc, if_true]
      rcases List.mem_cons.mp hm0 with e | e
      · subst e
        exact ⟨set m0, List.mem_cons_self _ _, by rw [hset, hid], hkeep m0 h1 h2⟩
      · exact ⟨m0, List.mem_cons_of_mem _ e, hid, h1, h2⟩
    · simp only [hc, if_false, Bool.false_eq_true]
      rcases List.mem_cons.mp hm0 with e | e
      · subst e
        exact ⟨m0, List.mem_cons_self _ _, hid, h1, h2⟩
      · obtain ⟨m1, hm1, r⟩ := ih ⟨m0, e, hid, h1, h2⟩
        exact ⟨m1, List.mem_cons_of_mem _ hm1, r⟩

theorem hasBoth_upsert_upsert (a b : Nat) (i : String) (ms : List MarkerObj) :
    HasBoth (upsert (fun o => { o with line := some b }) (.str i)
      (upsert (fun o => { o with marker := some a }) (.str i) ms)) (.str i) := by
  induction ms with
  | nil =>
    refine ⟨{ id := .str i, marker := some a, line := some b }, ?_, rfl, rfl, rfl⟩
    simp [upsert, JSVal.strictEq]
  | cons m ms ih =>
    by_cases hc : JSVal.strictEq m.id (.str i) = true
    · refine ⟨{ m with marker := some a, line := some b }, ?_,
        (strictEq_str m.id i).mp hc, rfl, rfl⟩
      simp [upsert, hc]
    · obtain ⟨m1, hm1, r⟩ := ih
      refine ⟨m1, ?_, r⟩
      simp only [upsert, hc, if_false, Bool.false_eq_true]
      exact List.mem_cons_of_mem _ hm1

/-- The registry after a marker and a line were rendered for one id. -/
theorem rendered_one (a b : Nat) (i : String) (ms : List MarkerObj) :
    Rendered ms
      (upsert (fun o => { o with line := some b }) (.str i)
        (upsert (fun o => { o with marker := some a }) (.str i) ms)) [.str i] := by
  refine ⟨fun h => ?_, fun x => ?_, fun j h => ?_, fun j hj => ?_⟩
  · exact nodup_registryIds_upsert (fun o => { o with line := some b }) (fun _ => rfl) i _
      (nodup_registryIds_upsert (fun o => { o with marker := some a }) (fun _ => rfl) i ms h)
  · rw [mem_registryIds_upsert (fun o => { o with line := some b }) (fun _ => rfl),
      mem_registryIds_upsert (fun o => { o with marker := some a }) (fun _ => rfl)]
    simp only [List.mem_singleton]
    tauto
  · exact hasBoth_upsert (fun o => { o with line := some b }) (fun _ => rfl)
      (fun m h1 _ => ⟨h1, rfl⟩) _ _ j
      (hasBoth_upsert (fun o => { o with marker := some a }) (fun _ => rfl)
        (fun m _ h2 => ⟨rfl, h2⟩) _ ms j h)
  · rw [List.mem_singleton.mp hj]
    exact hasBoth_upsert_upsert a b i ms

theorem rendered_nil (ms : List MarkerObj) : Rendered ms ms [] :=
  ⟨id, fun x => by simp, fun _ h => h, fun j hj => by simp at hj⟩

theorem rendered_trans (a b c : List MarkerObj) (i : JSVal) (ids : List JSVal)
    (h1 : Rendered a b [i]) (h2 : Rendered b c ids) : Rendered a c (i :: ids) := by
  obtain ⟨n1, m1, k1, r1⟩ := h1
  obtain ⟨n2, m2, k2, r2⟩ := h2
  refine ⟨fun h => n2 (n1 h), fun x => ?_, fun j h => k2 j (k1 j h), fun j hj => ?_⟩
  · rw [m2, m1]
    simp only [List.mem_singleton, List.mem_cons]
    tauto
  · rcases List.mem_cons.mp hj with e | e
    · exact k2 j (r1 j (by simp [e]))
    · exact r2 j e

/-! ### Rendering -/

theorem valid_of_made (B : Browser) (w : Item) (h : Made w) :
    B.validLatLng w.base.coords = true := by
  obtain ⟨-, p, hp⟩ := h
  rw [hp]
  exact B.latLng_ok p.1 p.2

/-- Marker and line of one workout, on a loaded map. -/
theorem render_one (B : Browser) (s : AppState) (w : Item) (m : LMap) (u : ℚ × ℚ)
    (hm : s.map = some m) (hu : s.userCoords = some u) (hw : Made w) :
    ∃ (m2 : LMap) (a b : Nat), m2.onClick = m.onClick ∧
      ((_renderWorkoutMarker B s w).andThen fun s1 => _renderConnectionLine B s1 w)
        = ⟨{ s with
              map := some m2
              markers := upsert (fun o => { o with line := some b }) w.id
                (upsert (fun o => { o with marker := some a }) w.id s.markers) },
            .done⟩ := by
  have hv := valid_of_made B w hw
  refine ⟨((m.addLayer (.marker w.base.coords (popupContent w))).2.addLayer
      (.polyline u w.base.coords (if w.type = "running" then "#00c46a" else "#ffb545"))).2,
    (m.addLayer (.marker w.base.coords (popupContent w))).1,
    ((m.addLayer (.marker w.base.coords (popupContent w))).2.addLayer
      (.polyline u w.base.coords (if w.type = "running" then "#00c46a" else "#ffb545"))).1,
    rfl, ?_⟩
  simp only [_renderWorkoutMarker, hm, hv, Bool.not_true, Bool.false_eq_true, if_false,
    Outcome.andThen, _renderConnectionLine, hu]

/-- The loop of `_loadMap`, on a loaded map, over objects the application made. -/
theorem renderAll_made (B : Browser) (ws : List Item) :
    ∀ (s : AppState) (m : LMap) (u : ℚ × ℚ), s.map = some m → s.userCoords = some u →
      (∀ w ∈ ws, Made w) →
      ∃ (m2 : LMap) (ms2 : List MarkerObj), m2.onClick = m.onClick ∧
        Rendered s.markers ms2 (ws.map Item.id) ∧
        renderAll B ws s = ⟨{ s with map := some m2, markers := ms2 }, .done⟩ := by
  induction ws with
  | nil =>
    intro s m u hm _ _
    refine ⟨m, s.markers, rfl, rendered_nil _, ?_⟩
    simp only [renderAll, ← hm]
  | cons w ws ih =>
    intro s m u hm hu hw
    obtain ⟨m2, a, b, hc, hr⟩ := render_one B s w m u hm hu (hw w (List.mem_cons_self _ _))
    obtain ⟨m3, ms3, hc3, hrel, hr3⟩ := ih
      { s with
        map := some m2
        markers := upsert (fun o => { o with line := some b }) w.id
          (upsert (fun o => { o with marker := some a }) w.id s.markers) }
      m2 u rfl hu fun x hx => hw x (List.mem_cons_of_mem _ hx)
    obtain ⟨⟨n, hn⟩, -⟩ := hw w (List.mem_cons_self _ _)
    refine ⟨m3, ms3, hc3.trans hc, ?_, ?_⟩
    · simp only [List.map_cons]
      refine rendered_trans _ _ _ _ _ ?_ hrel
      rw [hn]
      exact rendered_one a b (newId n) s.markers
    · rw [renderAll, hr]
      simp only [Outcome.andThen]
      rw [hr3]

/-- The method `_loadMap` on a page that has no map yet. -/
theorem loadMap_effect (B : Browser) (s : AppState) (position : ℚ × ℚ)
    (hmap : s.map = none) (hmk : s.markers = []) (hw : ∀ w ∈ s.workouts, Made w) :
    ∃ (m2 : LMap) (ms2 : List MarkerObj) (um : Nat), m2.onClick = true ∧
      Rendered [] ms2 (s.workouts.map Item.id) ∧
      (_loadMap B s position).state
        = (if 0 < s.workouts.length then _showControls else fun t => t)
            { s with
              userCoords := some position, map := some m2, userMarker := some um,
              markers := ms2 } := by
  obtain ⟨m2, ms2, hc, hrel, hr⟩ := renderAll_made B s.workouts
    { s with
      userCoords := some position
      map := some (initialMap position).2
      userMarker := some (initialMap position).1 }
    (initialMap position).2 position rfl rfl hw
  refine ⟨m2, ms2, (initialMap position).1, hc, ?_, ?_⟩
  · simpa [hmk] using hrel
  · simp only [_loadMap, hmap]
    rw [hr]
    simp only [Outcome.andThen]
    split <;> rfl

/-- The method `_loadMap` on a page that already has a map. -/
theorem loadMap_twice (B : Browser) (s : AppState) (position : ℚ × ℚ) (m : LMap)
    (hmap : s.map = some m) :
    (_loadMap B s position).state = { s with userCoords := some position } := by
  simp only [_loadMap, hmap]

/-- The tail of `_newWorkout`, on a loaded map. -/
theorem addWorkout_effect (B : Browser) (s : AppState) (w : Item) (m : LMap) (u : ℚ × ℚ)
    (hm : s.map = some m) (hu : s.userCoords = some u) (hw : Made w) :
    ∃ (m2 : LMap) (ms2 : List MarkerObj), m2.onClick = m.onClick ∧
      Rendered s.markers ms2 [w.id] ∧
      addWorkout B s w
        = ⟨_showControls (_setLocalStorage B (_hideForm
            { s with workouts := s.workouts ++ [w], map := some m2, markers := ms2 })),
          .done⟩ := by
  obtain ⟨m2, a, b, hc, hr⟩ := render_one B { s with workouts := s.workouts ++ [w] } w m u
    hm hu hw
  obtain ⟨⟨n, hn⟩, -⟩ := hw
  refine ⟨m2, upsert (fun o => { o with line := some b }) w.id
      (upsert (fun o => { o with marker := some a }) w.id s.markers), hc, ?_, ?_⟩
  · rw [hn]
    exact rendered_one a b (newId n) s.markers
  · unfold addWorkout
    simp only []
    rw [hr]
    rfl

/-! ### Ids and snapshots -/

theorem digitChar_isDigit (d : Nat) (h : d < 10) : (Nat.digitChar d).isDigit = true := by
  interval_cases d <;> decide

theorem toDigitsCore_isDigit (fuel : Nat) :
    ∀ (n : Nat) (ds : List Char), ds.all Char.isDigit = true →
      (Nat.toDigitsCore 10 fuel n ds).all Char.isDigit = true := by
  induction fuel with
  | zero =>
    intro n ds h
    simpa [Nat.toDigitsCore] using h
  | succ fuel ih =>
    intro n ds h
    have hd : (Nat.digitChar (n % 10)).isDigit = true :=
      digitChar_isDigit _ (Nat.mod_lt _ (by decide))
    have hcons : (Nat.digitChar (n % 10) :: ds).all Char.isDigit = true := by
      simp only [List.all_cons, hd, h, Bool.and_self]
    unfold Nat.toDigitsCore
    simp only []
    split
    · exact hcons
    · exact ih _ _ hcons

/-- The id derived from a clock reading is made of decimal digits. -/
theorem newId_digits (now : Nat) : (newId now).data.all Char.isDigit = true := by
  have h : (toString now).data.all Char.isDigit = true :=
    toDigitsCore_isDigit _ _ _ rfl
  simp only [newId, List.all_eq_true] at h ⊢
  intro c hc
  exact h c (List.mem_of_mem_drop hc)

/-- The DOM accepts the selector of every id that equals the id of a made object. -/
theorem selector_of_made (B : Browser) (w : Item) (id : JSVal) (hw : Made w)
    (h : JSVal.strictEq w.id id = true) : B.entrySelectorFails id = false := by
  obtain ⟨⟨n, hn⟩, -⟩ := hw
  rw [hn] at h
  rw [(strictEq_str_left _ _).mp h]
  exact B.selector_ok _ (newId_digits n)

theorem made_reloaded (B : Browser) (clk : Clock) (w : Item) (h : Made w) :
    Made (reloaded B clk w) := by
  obtain ⟨⟨n, hn⟩, p, hp⟩ := h
  refine ⟨⟨n, ?_⟩, p, ?_⟩
  · rw [reloaded_id, hn]
    rfl
  · rw [reloaded_coords, hp]
    rfl

theorem ids_reloaded (B : Browser) (clk : Clock) (ws : List Item) (h : ∀ w ∈ ws, Made w) :
    (ws.map (reloaded B clk)).map Item.id = ws.map Item.id := by
  rw [List.map_map]
  apply List.map_congr_left
  intro w hw
  obtain ⟨⟨n, hn⟩, -⟩ := h w hw
  simp only [Function.comp, reloaded_id, hn]
  rfl

/-- The state in which the constructor of `App` leaves a page whose stored value is
absent or a snapshot. -/
theorem appNew_of_snapshot (B : Browser) (clk : Clock) (stored : Option StoredText)
    (P : List Item → Prop) (h : Snapshot B stored P) (hnil : P []) :
    ∃ ws, P ws ∧
      App.new B clk stored
        = ⟨{ freshPage B stored with
              geoPending := true, workouts := ws.map (reloaded B clk), handlers := true },
            .done⟩ := by
  rcases h with h | ⟨ws, h, hP⟩
  · refine ⟨[], hnil, ?_⟩
    subst h
    rfl
  · refine ⟨ws, hP, ?_⟩
    unfold App.new
    simp only []
    rw [load_saved B clk _ ws (by simpa [freshPage] using h)]
    rfl

/-! ### The invariant of the list, the snapshot and the registry -/

/-- The invariant only looks at the list, the snapshot, the registry, and whether there
is a map, a map click and a user position. -/
theorem inv_of_same (B : Browser) (s t : AppState) (h : Inv B s)
    (e1 : t.workouts = s.workouts) (e2 : t.storage = s.storage)
    (e3 : t.map = none ↔ s.map = none) (e4 : t.markers = s.markers)
    (e5 : s.mapEvent = none → t.mapEvent = none)
    (e6 : s.userCoords ≠ none → t.userCoords ≠ none) : Inv B t where
  made := by rw [e1]; exact h.made
  stored := by rw [e2]; exact h.stored
  noMap := fun hm => by
    rw [e4]
    exact ⟨(h.noMap (e3.mp hm)).1, e5 (h.noMap (e3.mp hm)).2⟩
  user := fun hm => e6 (h.user fun hn => hm (e3.mpr hn))
  regNodup := by rw [e4]; exact h.regNodup
  regSub := by rw [e4, e1]; exact h.regSub
  regAll := fun hm => by
    rw [e4, e1]
    exact h.regAll fun hn => hm (e3.mpr hn)

/-- The invariant holds after the constructor of `App` whenever the stored value is
absent or the snapshot of made objects. -/
theorem inv_appNew (B : Browser) (clk : Clock) (stored : Option StoredText)
    (h : Snapshot B stored fun ws => ∀ w ∈ ws, Made w) :
    Inv B (App.new B clk stored).state := by
  obtain ⟨ws, hws, hnew⟩ := appNew_of_snapshot B clk stored _ h (fun w hw => by simp at hw)
  rw [hnew]
  exact
    { made := fun w hw => by
        obtain ⟨w0, hw0, rfl⟩ := List.mem_map.mp hw
        exact made_reloaded B clk w0 (hws w0 hw0)
      stored := h
      noMap := fun _ => ⟨rfl, rfl⟩
      user := fun hm => absurd rfl hm
      regNodup := List.nodup_nil
      regSub := fun m hm => by simp [freshPage] at hm
      regAll := fun hm => absurd rfl hm }

theorem newWorkout_unanchored (B : Browser) (clk : Clock) (s : AppState)
    (h : s.mapEvent = none) : (_newWorkout B clk s).state = s := by
  simp only [_newWorkout, h]

/-- The invariant after `_newWorkout`. -/
theorem inv_newWorkout (B : Browser) (clk : Clock) (s : AppState) (h : Inv B s) :
    Inv B (_newWorkout B clk s).state := by
  by_cases hacc : Accepted B s
  swap
  · rw [(newWorkout_rejected B clk s hacc).1]
    exact h
  cases hev : s.mapEvent with
  | none =>
    rw [newWorkout_unanchored B clk s hev]
    exact h
  | some latlng =>
    obtain ⟨w, hw, hid, hco⟩ := newWorkout_accepted B clk s latlng hev hacc
    have hmade : Made w := ⟨⟨clk.now, hid⟩, latlng, hco⟩
    have hmap : s.map ≠ none := fun hn => by
      have := (h.noMap hn).2
      rw [hev] at this
      cases this
    obtain ⟨m, hm⟩ := Option.ne_none_iff_exists'.mp hmap
    obtain ⟨u, hu⟩ := Option.ne_none_iff_exists'.mp (h.user hmap)
    obtain ⟨m2, ms2, -, hrel, heff⟩ := addWorkout_effect B s w m u hm hu hmade
    rw [hw, heff]
    have hall : ∀ x ∈ s.workouts ++ [w], Made x := fun x hx => by
      rcases List.mem_append.mp hx with hx | hx
      · exact h.made x hx
      · rw [List.mem_singleton.mp hx]
        exact hmade
    exact
      { made := hall
        stored := Or.inr ⟨s.workouts ++ [w], rfl, hall⟩
        noMap := fun hn => by cases hn
        user := fun _ => by
          show s.userCoords ≠ none
          rw [hu]
          exact fun hn => by cases hn
        regNodup := hrel.1 h.regNodup
        regSub := fun mo hmo => by
          have hin : mo.id ∈ registryIds ms2 := List.mem_map_of_mem _ hmo
          rcases (hrel.2.1 mo.id).mp hin with hold | hnew
          · obtain ⟨m0, hm0, hm0id⟩ := List.mem_map.mp hold
            obtain ⟨x, hx, hxid⟩ := h.regSub m0 hm0
            exact ⟨x, List.mem_append_left _ hx, hxid.trans hm0id⟩
          · exact ⟨w, List.mem_append_right _ (List.mem_singleton_self w),
              (List.mem_singleton.mp hnew).symm⟩
        regAll := fun _ x hx => by
          rcases List.mem_append.mp hx with hx | hx
          · exact hrel.2.2.1 _ (h.regAll hmap x hx)
          · rw [List.mem_singleton.mp hx]
            exact hrel.2.2.2 _ (List.mem_singleton_self _) }

theorem inv_setLocalStorage (B : Browser) (s : AppState) (h : Inv B s) :
    Inv B (_setLocalStorage B s) :=
  { made := h.made
    stored := Or.inr ⟨s.workouts, rfl, h.made⟩
    noMap := h.noMap
    user := h.user
    regNodup := h.regNodup
    regSub := h.regSub
    regAll := h.regAll }

theorem inv_showControls (B : Browser) (s : AppState) (h : Inv B s) :
    Inv B (_showControls s) :=
  inv_of_same B s _ h rfl rfl Iff.rfl rfl id id

theorem inv_hideControls (B : Browser) (s : AppState) (h : Inv B s) :
    Inv B (_hideControls s) :=
  inv_of_same B s _ h rfl rfl Iff.rfl rfl id id

theorem isSome_eq_iff_none {α β : Type} (a : Option α) (b : Option β)
    (h : a.isSome = b.isSome) : a = none ↔ b = none := by
  cases a <;> cases b <;> simp_all

/-- The invariant after steps 1 and 2 of `_deleteWorkout`. -/
theorem inv_afterRemoval (B : Browser) (s : AppState) (id : JSVal) (m1 : Option LMap)
    (h : Inv B s) (hm1 : m1.isSome = s.map.isSome) : Inv B (afterRemoval s id m1) where
  made := fun w hw => h.made w (List.mem_of_mem_filter hw)
  stored := h.stored
  noMap := fun hn => by
    have hs := h.noMap ((isSome_eq_iff_none m1 s.map hm1).mp hn)
    refine ⟨?_, hs.2⟩
    show s.markers.filter _ = []
    rw [hs.1]
    rfl
  user := fun hn => h.user fun hs => hn ((isSome_eq_iff_none m1 s.map hm1).mpr hs)
  regNodup := by
    show (registryIds (s.markers.filter _)).Nodup
    exact List.Nodup.sublist (List.Sublist.map _ (List.filter_sublist _)) h.regNodup
  regSub := fun m hm => by
    have hm' : m ∈ s.markers.filter fun m => !JSVal.strictEq m.id id := hm
    obtain ⟨hmem, hne⟩ := List.mem_filter.mp hm'
    obtain ⟨w, hw, hid⟩ := h.regSub m hmem
    refine ⟨w, ?_, hid⟩
    show w ∈ s.workouts.filter fun w => !JSVal.strictEq w.id id
    rw [List.mem_filter]
    exact ⟨hw, by rw [hid]; exact hne⟩
  regAll := fun hn w hw => by
    have hw' : w ∈ s.workouts.filter fun w => !JSVal.strictEq w.id id := hw
    obtain ⟨hmem, hne⟩ := List.mem_filter.mp hw'
    obtain ⟨m, hm, hid, hb⟩ :=
      h.regAll (fun hs => hn ((isSome_eq_iff_none m1 s.map hm1).mpr hs)) w hmem
    refine ⟨m, ?_, hid, hb⟩
    show m ∈ s.markers.filter fun m => !JSVal.strictEq m.id id
    rw [List.mem_filter]
    exact ⟨hm, by rw [hid]; exact hne⟩

/-- The invariant after `_deleteWorkout`. -/
theorem inv_deleteWorkout (B : Browser) (s : AppState) (id : JSVal) (confirmed : Bool)
    (h : Inv B s) : Inv B (_deleteWorkout B s id confirmed).state := by
  cases confirmed with
  | false => exact h
  | true =>
    obtain ⟨m1, hm1, hdel⟩ := deleteWorkout_confirmed B s id fun hn => (h.noMap hn).1
    have h2 := inv_afterRemoval B s id m1 h hm1
    rw [hdel]
    split
    · exact h2
    · simp only []
      split
      · exact inv_hideControls B _ (inv_setLocalStorage B _ h2)
      · exact inv_setLocalStorage B _ h2

/-- The invariant after `_loadMap`. -/
theorem inv_loadMap (B : Browser) (s : AppState) (position : ℚ × ℚ) (h : Inv B s) :
    Inv B (_loadMap B s position).state := by
  cases hmap : s.map with
  | some m =>
    rw [loadMap_twice B s position m hmap]
    exact inv_of_same B s _ h rfl rfl Iff.rfl rfl id fun _ hn => by cases hn
  | none =>
    obtain ⟨m2, ms2, um, -, hrel, heff⟩ :=
      loadMap_effect B s position hmap (h.noMap hmap).1 h.made
    rw [heff]
    have key : Inv B { s with
        userCoords := some position, map := some m2, userMarker := some um, markers := ms2 } :=
      { made := h.made
        stored := h.stored
        noMap := fun hn => by cases hn
        user := fun _ hn => by cases hn
        regNodup := hrel.1 List.nodup_nil
        regSub := fun mo hmo => by
          have hin : mo.id ∈ registryIds ms2 := List.mem_map_of_mem _ hmo
          rcases (hrel.2.1 mo.id).mp hin with hold | hnew
          · simp [registryIds] at hold
          · obtain ⟨w, hw, hid⟩ := List.mem_map.mp hnew
            exact ⟨w, hw, hid⟩
        regAll := fun _ w hw => hrel.2.2.2 _ (List.mem_map_of_mem _ hw) }
    split
    · exact inv_showControls B _ key
    · exact key

/-- The invariant after `_moveToPopup`. -/
theorem inv_moveToPopup (B : Browser) (s : AppState) (id : JSVal) (h : Inv B s) :
    Inv B (_moveToPopup B s id).state := by
  unfold _moveToPopup
  split
  · exact h
  · rename_i m hm
    split
    · exact h
    · split
      · exact h
      · exact inv_of_same B s _ h rfl rfl (by simp [hm]) rfl (fun x => x) (fun x => x)

/-- Every event keeps the invariant. -/
theorem inv_step (B : Browser) (s : AppState) (e : Event) (h : Inv B s) :
    Inv B (step B s e) := by
  cases e with
  | reload clk => exact inv_appNew B clk s.storage h.stored
  | position coords =>
    simp only [step]
    split
    · exact inv_loadMap B _ coords (inv_of_same B s _ h rfl rfl Iff.rfl rfl id id)
    · exact h
  | positionError => exact inv_of_same B s _ h rfl rfl Iff.rfl rfl id id
  | mapClick latlng =>
    simp only [step]
    split
    · rename_i m hm
      split
      · exact
          { made := h.made
            stored := h.stored
            noMap := fun hn => by
              have : s.map = none := hn
              rw [hm] at this
              cases this
            user := h.user
            regNodup := h.regNodup
            regSub := h.regSub
            regAll := h.regAll }
      · exact h
    · exact h
  | edit field text =>
    cases field <;> exact inv_of_same B s _ h rfl rfl Iff.rfl rfl id id
  | selectType type =>
    simp only [step]
    split <;> exact inv_of_same B s _ h rfl rfl Iff.rfl rfl id id
  | submit clk =>
    simp only [step]
    split
    · exact inv_newWorkout B clk s h
    · exact h
  | clickEntry dataId =>
    simp only [step]
    split
    · exact inv_moveToPopup B s dataId h
    · exact h
  | clickDelete dataId confirmed =>
    simp only [step]
    split
    · exact inv_deleteWorkout B s dataId confirmed h
    · exact h
  | clickClear clk confirmed =>
    simp only [step]
    split
    · cases confirmed with
      | false => exact h
      | true => exact inv_appNew B clk none (Or.inl rfl)
    · exact h

theorem inv_foldl (B : Browser) (events : List Event) :
    ∀ s : AppState, Inv B s → Inv B (events.foldl (step B) s) := by
  induction events with
  | nil => exact fun _ h => h
  | cons e es ih => exact fun s h => ih _ (inv_step B s e h)

/-- The invariant holds in every state of a run. -/
theorem inv_run (B : Browser) (clk : Clock) (events : List Event) :
    Inv B (run B clk events) :=
  inv_foldl B events _ (inv_appNew B clk none (Or.inl rfl))

/-! ### The controls panel -/

theorem controls_of_same (s t : AppState) (h : ControlsInv s)
    (e1 : t.sidebarControls = s.sidebarControls) (e2 : t.workouts = s.workouts)
    (e3 : t.map = none ↔ s.map = none) : ControlsInv t := by
  obtain ⟨hidden, h1, h2, h3⟩ := h
  refine ⟨hidden, e1.trans h1, ?_, ?_⟩
  · rw [e2]
    exact h2
  · rw [e2]
    exact fun hm => h3 fun hn => hm (e3.mpr hn)

theorem controls_appNew (B : Browser) (clk : Clock) (stored : Option StoredText)
    (hB : B.controlsMarkup = some true)
    (h : Snapshot B stored fun ws => ∀ w ∈ ws, Made w) :
    ControlsInv (App.new B clk stored).state := by
  obtain ⟨ws, -, hnew⟩ := appNew_of_snapshot B clk stored _ h (fun w hw => by simp at hw)
  rw [hnew]
  refine ⟨true, hB, ?_, fun hm => absurd rfl hm⟩
  intro hf
  cases hf

theorem controls_shown (s : AppState) (h : ∃ hidden, s.sidebarControls = some hidden)
    (hne : s.workouts ≠ []) : ControlsInv (_showControls s) := by
  obtain ⟨hidden, hh⟩ := h
  refine ⟨false, ?_, fun _ => hne, fun _ => ⟨fun _ => hne, fun _ => rfl⟩⟩
  simp [_showControls, hh]

theorem controls_newWorkout (B : Browser) (clk : Clock) (s : AppState) (hI : Inv B s)
    (hC : ControlsInv s) :
    ControlsInv (_newWorkout B clk s).state ∧
      ((_newWorkout B clk s).state.workouts ≠ s.workouts →
        (_newWorkout B clk s).state.sidebarControls = some false) := by
  by_cases hacc : Accepted B s
  swap
  · rw [(newWorkout_rejected B clk s hacc).1]
    exact ⟨hC, fun h => absurd rfl h⟩
  cases hev : s.mapEvent with
  | none =>
    rw [newWorkout_unanchored B clk s hev]
    exact ⟨hC, fun h => absurd rfl h⟩
  | some latlng =>
    obtain ⟨w, hw, hid, hco⟩ := newWorkout_accepted B clk s latlng hev hacc
    have hmap : s.map ≠ none := fun hn => by
      have := (hI.noMap hn).2
      rw [hev] at this
      cases this
    obtain ⟨m, hm⟩ := Option.ne_none_iff_exists'.mp hmap
    obtain ⟨u, hu⟩ := Option.ne_none_iff_exists'.mp (hI.user hmap)
    obtain ⟨m2, ms2, -, -, heff⟩ :=
      addWorkout_effect B s w m u hm hu ⟨⟨clk.now, hid⟩, latlng, hco⟩
    obtain ⟨hidden, hh, -⟩ := hC
    have key := controls_shown
      (_setLocalStorage B (_hideForm
        { s with workouts := s.workouts ++ [w], map := some m2, markers := ms2 }))
      ⟨hidden, hh⟩ (by simp [_setLocalStorage, _hideForm])
    rw [hw, heff]
    refine ⟨key, fun _ => ?_⟩
    simp [_showControls, _setLocalStorage, _hideForm, hh]

theorem controls_loadMap (B : Browser) (s : AppState) (position : ℚ × ℚ) (hI : Inv B s)
    (hC : ControlsInv s) : ControlsInv (_loadMap B s position).state := by
  cases hmap : s.map with
  | some m =>
    rw [loadMap_twice B s position m hmap]
    exact controls_of_same s _ hC rfl rfl Iff.rfl
  | none =>
    obtain ⟨m2, ms2, um, -, -, heff⟩ :=
      loadMap_effect B s position hmap (hI.noMap hmap).1 hI.made
    rw [heff]
    obtain ⟨hidden, hh, h2, -⟩ := hC
    split
    · rename_i hlen
      exact controls_shown _ ⟨hidden, hh⟩ (List.length_pos.mp hlen)
    · rename_i hlen
      have hnil : s.workouts = [] := by
        cases hws : s.workouts with
        | nil => rfl
        | cons a l => simp [hws] at hlen
      refine ⟨hidden, hh, ?_, fun _ => ?_⟩
      · exact h2
      · show hidden = false ↔ s.workouts ≠ []
        constructor
        · exact h2
        · exact fun hne => absurd hnil hne

theorem controls_deleteWorkout (B : Browser) (s : AppState) (id : JSVal) (confirmed : Bool)
    (hI : Inv B s) (hC : ControlsInv s) :
    ControlsInv (_deleteWorkout B s id confirmed).state := by
  cases confirmed with
  | false => exact hC
  | true =>
    obtain ⟨m1, hm1, hdel⟩ := deleteWorkout_confirmed B s id fun hn => (hI.noMap hn).1
    obtain ⟨hidden, hh, h2, h3⟩ := hC
    rw [hdel]
    split
    · rename_i hfail
      have hsame : s.workouts.filter (fun w => !JSVal.strictEq w.id id) = s.workouts := by
        rw [List.filter_eq_self]
        intro w hw
        cases hc : JSVal.strictEq w.id id
        · rfl
        · have := selector_of_made B w id (hI.made w hw) hc
          rw [hfail] at this
          cases this
      refine ⟨hidden, hh, ?_, fun hm => ?_⟩
      · show hidden = false → s.workouts.filter _ ≠ []
        rw [hsame]
        exact h2
      · show hidden = false ↔ s.workouts.filter _ ≠ []
        rw [hsame]
        exact h3 fun hn => hm ((isSome_eq_iff_none m1 s.map hm1).mpr hn)
    · simp only []
      split
      · rename_i hlen
        refine ⟨true, ?_, ?_, fun _ => ⟨?_, fun hne => ?_⟩⟩
        · simp [_hideControls, _setLocalStorage, afterRemoval, hh]
        · intro hf
          cases hf
        · intro hf
          cases hf
        · exact absurd (List.length_eq_zero.mp hlen) hne
      · rename_i hlen
        have hne : s.workouts.filter (fun w => !JSVal.strictEq w.id id) ≠ [] :=
          fun hn => hlen (by
            show (s.workouts.filter _).length = 0
            rw [hn]
            rfl)
        have hs : s.workouts ≠ [] := fun hn => hne (by rw [hn]; rfl)
        refine ⟨hidden, hh, fun _ => hne, fun hm => ⟨fun _ => hne, fun _ => ?_⟩⟩
        exact (h3 fun hn => hm ((isSome_eq_iff_none m1 s.map hm1).mpr hn)).mpr hs

theorem controls_moveToPopup (B : Browser) (s : AppState) (id : JSVal)
    (hC : ControlsInv s) : ControlsInv (_moveToPopup B s id).state := by
  unfold _moveToPopup
  split
  · exact hC
  · rename_i m hm
    split
    · exact hC
    · split
      · exact hC
      · exact controls_of_same s _ hC rfl rfl (by simp [hm])

/-- Every event keeps the invariant of the controls panel, on a page that is served
with the panel hidden. -/
theorem controls_step (B : Browser) (s : AppState) (e : Event)
    (hB : B.controlsMarkup = some true) (hI : Inv B s) (hC : ControlsInv s) :
    ControlsInv (step B s e) := by
  cases e with
  | reload clk => exact controls_appNew B clk s.storage hB hI.stored
  | position coords =>
    simp only [step]
    split
    · exact controls_loadMap B _ coords (inv_of_same B s _ hI rfl rfl Iff.rfl rfl id id)
        (controls_of_same s _ hC rfl rfl Iff.rfl)
    · exact hC
  | positionError => exact controls_of_same s _ hC rfl rfl Iff.rfl
  | mapClick latlng =>
    simp only [step]
    split
    · split
      · exact controls_of_same s _ hC rfl rfl Iff.rfl
      · exact hC
    · exact hC
  | edit field text =>
    cases field <;> exact controls_of_same s _ hC rfl rfl Iff.rfl
  | selectType type =>
    simp only [step]
    split <;> exact controls_of_same s _ hC rfl rfl Iff.rfl
  | submit clk =>
    simp only [step]
    split
    · exact (controls_newWorkout B clk s hI hC).1
    · exact hC
  | clickEntry dataId =>
    simp only [step]
    split
    · exact controls_moveToPopup B s dataId hC
    · exact hC
  | clickDelete dataId confirmed =>
    simp only [step]
    split
    · exact controls_deleteWorkout B s dataId confirmed hI hC
    · exact hC
  | clickClear clk confirmed =>
    simp only [step]
    split
    · cases confirmed with
      | false => exact hC
      | true => exact controls_appNew B clk none hB (Or.inl rfl)
    · exact hC

theorem controls_foldl (B : Browser) (hB : B.controlsMarkup = some true)
    (events : List Event) :
    ∀ s : AppState, Inv B s → ControlsInv s → ControlsInv (events.foldl (step B) s) := by
  induction events with
  | nil => exact fun _ _ h => h
  | cons e es ih =>
    exact fun s hI hC => ih _ (inv_step B s e hI) (controls_step B s e hB hI hC)

theorem controls_run (B : Browser) (clk : Clock) (events : List Event)
    (hB : B.controlsMarkup = some true) : ControlsInv (run B clk events) :=
  controls_foldl B hB events _ (inv_appNew B clk none (Or.inl rfl))
    (controls_appNew B clk none hB (Or.inl rfl))

/-! ### C9 -/

/-- C9: on a page served with the controls panel hidden, in every state reached from a
first visit by any sequence of page loads, position answers, map clicks, edits of the
form, submissions, clicks on list entries, deletions (confirmed or not) and resets,
the panel is shown only if the list is non-empty, and once the map is there it is shown
exactly when the list is non-empty; a submission that adds a workout leaves the panel
shown, and a deletion that empties the list leaves it hidden. -/
theorem C9_controls_follow_list (B : Browser) (clk : Clock) (events : List Event)
    (hB : B.controlsMarkup = some true) :
    ((run B clk events).sidebarControls = some false → (run B clk events).workouts ≠ []) ∧
    ((run B clk events).map ≠ none →
      ((run B clk events).sidebarControls = some false ↔ (run B clk events).workouts ≠ [])) ∧
    (∀ c : Clock,
      (step B (run B clk events) (.submit c)).workouts ≠ (run B clk events).workouts →
      (step B (run B clk events) (.submit c)).sidebarControls = some false) ∧
    (∀ id : JSVal, (step B (run B clk events) (.clickDelete id true)).workouts = [] →
      (step B (run B clk events) (.clickDelete id true)).sidebarControls = some true) := by
  have hI := inv_run B clk events
  have hC := controls_run B clk events hB
  refine ⟨?_, ?_, ?_, ?_⟩
  · obtain ⟨hidden, hh, h2, -⟩ := hC
    intro hs
    rw [hh] at hs
    exact h2 (Option.some.inj hs)
  · obtain ⟨hidden, hh, -, h3⟩ := hC
    intro hm
    rw [hh]
    constructor
    · exact fun hs => (h3 hm).mp (Option.some.inj hs)
    · exact fun hne => congrArg some ((h3 hm).mpr hne)
  · intro c
    simp only [step]
    split
    · exact (controls_newWorkout B c _ hI hC).2
    · exact fun h => absurd rfl h
  · intro id hempty
    obtain ⟨hidden, hh, h2, -⟩ := controls_step B _ (.clickDelete id true) hB hI hC
    rw [hh]
    cases hidden with
    | true => rfl
    | false => exact absurd hempty (h2 rfl)

/-- C9 on the sample page: after two accepted submissions the panel is shown, and after
the two workouts are deleted it is hidden again. -/
theorem C9_controls_follow_list_witness :
    (run sampleBrowser ⟨0, 0⟩ twoSubmissions).sidebarControls = some false ∧
    (run sampleBrowser ⟨0, 0⟩
      (twoSubmissions ++ [.clickDelete (.str "6700000000") true,
        .clickDelete (.str "6700060000") true])).sidebarControls ≠ some false :=
  have h1 := C9_controls_follow_list sampleBrowser ⟨0, 0⟩ twoSubmissions rfl
  have h2 := C9_controls_follow_list sampleBrowser ⟨0, 0⟩
    (twoSubmissions ++ [.clickDelete (.str "6700000000") true,
      .clickDelete (.str "6700060000") true]) rfl
  ⟨(h1.2.1 fun h => absurd (congrArg Option.isSome h) (by decide)).mpr
      fun h => absurd (congrArg List.length h) (by decide),
    fun hs => h2.1 hs (List.eq_nil_of_length_eq_zero (by decide))⟩

/-! ### C10 -/

/-- C10: in every state reached from a first visit by any sequence of events (position
answers, submissions and deletions among them), the registry holds at most one entry
per id, the id of every registry entry is the id of a workout of the list and, once the
map is there, every workout of the list has a registry entry that holds both a marker
handle and a line handle. -/
theorem C10_registry_follows_list (B : Browser) (clk : Clock) (events : List Event) :
    (registryIds (run B clk events).markers).Nodup ∧
    (∀ m ∈ (run B clk events).markers, ∃ w ∈ (run B clk events).workouts, w.id = m.id) ∧
    ((run B clk events).map ≠ none →
      ∀ w ∈ (run B clk events).workouts, ∃ m ∈ (run B clk events).markers,
        m.id = w.id ∧ m.marker.isSome = true ∧ m.line.isSome = true) :=
  have h := inv_run B clk events
  ⟨h.regNodup, h.regSub, h.regAll⟩

/-- C10 on the sample page, after two accepted submissions: the registry has one entry
for each of the two workouts, each with both handles. -/
theorem C10_registry_follows_list_witness :
    (registryIds (run sampleBrowser ⟨0, 0⟩ twoSubmissions).markers).Nodup ∧
    (run sampleBrowser ⟨0, 0⟩ twoSubmissions).markers.map
        (fun m => (m.marker.isSome, m.line.isSome)) = [(true, true), (true, true)] :=
  ⟨(C10_registry_follows_list sampleBrowser ⟨0, 0⟩ twoSubmissions).1, by decide⟩

/-! ### C8 -/

theorem unique_of_same (B : Browser) (s t : AppState) (h : UniqueInv B s)
    (e1 : t.workouts = s.workouts) (e2 : t.storage = s.storage) : UniqueInv B t := by
  unfold UniqueInv
  rw [e1, e2]
  exact h

theorem unique_appNew (B : Browser) (clk : Clock) (stored : Option StoredText)
    (h : Snapshot B stored fun ws => (∀ w ∈ ws, Made w) ∧ (ws.map Item.id).Nodup) :
    UniqueInv B (App.new B clk stored).state := by
  obtain ⟨ws, ⟨hmade, hnd⟩, hnew⟩ :=
    appNew_of_snapshot B clk stored _ h ⟨fun w hw => by simp at hw, List.nodup_nil⟩
  rw [hnew]
  refine ⟨?_, h⟩
  show ((ws.map (reloaded B clk)).map Item.id).Nodup
  rw [ids_reloaded B clk ws hmade]
  exact hnd

theorem loadMap_keeps (B : Browser) (s : AppState) (position : ℚ × ℚ) (hI : Inv B s) :
    (_loadMap B s position).state.workouts = s.workouts ∧
      (_loadMap B s position).state.storage = s.storage := by
  cases hmap : s.map with
  | some m =>
    rw [loadMap_twice B s position m hmap]
    exact ⟨rfl, rfl⟩
  | none =>
    obtain ⟨m2, ms2, um, -, -, heff⟩ :=
      loadMap_effect B s position hmap (hI.noMap hmap).1 hI.made
    rw [heff]
    split <;> exact ⟨rfl, rfl⟩

theorem moveToPopup_keeps (B : Browser) (s : AppState) (id : JSVal) :
    (_moveToPopup B s id).state.workouts = s.workouts ∧
      (_moveToPopup B s id).state.storage = s.storage := by
  unfold _moveToPopup
  split
  · exact ⟨rfl, rfl⟩
  · split
    · exact ⟨rfl, rfl⟩
    · split <;> exact ⟨rfl, rfl⟩

/-- What a submission does to the list: nothing, or one object is appended whose id
is the one derived from the clock reading of the submission. -/
theorem newWorkout_list (B : Browser) (clk : Clock) (s : AppState) :
    (_newWorkout B clk s).state = s ∨
      ∃ w : Item, (_newWorkout B clk s).state.workouts = s.workouts ++ [w] ∧
        w.id = .str (newId clk.now) := by
  by_cases hacc : Accepted B s
  swap
  · exact Or.inl (newWorkout_rejected B clk s hacc).1
  cases hev : s.mapEvent with
  | none => exact Or.inl (newWorkout_unanchored B clk s hev)
  | some latlng =>
    obtain ⟨w, hw, hid, -⟩ := newWorkout_accepted B clk s latlng hev hacc
    exact Or.inr ⟨w, by rw [hw, addWorkout_workouts], hid⟩

theorem unique_newWorkout (B : Browser) (clk : Clock) (s : AppState) (hI : Inv B s)
    (hU : UniqueInv B s)
    (hfresh : (s.workouts.all fun w => !JSVal.strictEq w.id (.str (newId clk.now))) = true) :
    UniqueInv B (_newWorkout B clk s).state := by
  have hI2 := inv_newWorkout B clk s hI
  rcases newWorkout_list B clk s with hsame | ⟨w, hw, hid⟩
  · rw [hsame]
    exact hU
  · have hstore : (_newWorkout B clk s).state.storage
        = some (.json (.arr ((_newWorkout B clk s).state.workouts.map (Item.toJSON B)))) := by
      by_cases hacc : Accepted B s
      swap
      · rw [(newWorkout_rejected B clk s hacc).1] at hw
        have := congrArg List.length hw
        simp at this
      cases hev : s.mapEvent with
      | none =>
        rw [newWorkout_unanchored B clk s hev] at hw
        have := congrArg List.length hw
        simp at this
      | some latlng =>
        obtain ⟨w1, hw1, hid1, hco1⟩ := newWorkout_accepted B clk s latlng hev hacc
        have hmap : s.map ≠ none := fun hn => by
          have := (hI.noMap hn).2
          rw [hev] at this
          cases this
        obtain ⟨m, hm⟩ := Option.ne_none_iff_exists'.mp hmap
        obtain ⟨u, hu⟩ := Option.ne_none_iff_exists'.mp (hI.user hmap)
        obtain ⟨m2, ms2, -, -, heff⟩ :=
          addWorkout_effect B s w1 m u hm hu ⟨⟨clk.now, hid1⟩, latlng, hco1⟩
        rw [hw1, heff]
        rfl
    have hnd : ((_newWorkout B clk s).state.workouts.map Item.id).Nodup := by
      rw [hw, List.map_append, List.map_singleton, hid]
      refine List.Nodup.append hU.1 (List.nodup_singleton _) ?_
      intro x hx hx2
      rw [List.mem_singleton] at hx2
      subst hx2
      obtain ⟨w0, hw0, hw0id⟩ := List.mem_map.mp hx
      have h1 := List.all_eq_true.mp hfresh w0 hw0
      have h2 := (strictEq_str w0.id (newId clk.now)).mpr hw0id
      rw [h2] at h1
      cases h1
    exact ⟨hnd, Or.inr ⟨_, hstore, hI2.made, hnd⟩⟩

theorem unique_deleteWorkout (B : Browser) (s : AppState) (id : JSVal) (confirmed : Bool)
    (hI : Inv B s) (hU : UniqueInv B s) :
    UniqueInv B (_deleteWorkout B s id confirmed).state := by
  cases confirmed with
  | false => exact hU
  | true =>
    obtain ⟨m1, hm1, hdel⟩ := deleteWorkout_confirmed B s id fun hn => (hI.noMap hn).1
    have hnd : ((s.workouts.filter fun w => !JSVal.strictEq w.id id).map Item.id).Nodup :=
      List.Nodup.sublist (List.Sublist.map _ (List.filter_sublist _)) hU.1
    have hmade : ∀ w ∈ s.workouts.filter (fun w => !JSVal.strictEq w.id id), Made w :=
      fun w hw => hI.made w (List.mem_of_mem_filter hw)
    rw [hdel]
    split
    · exact ⟨hnd, hU.2⟩
    · simp only []
      split
      · exact ⟨hnd, Or.inr ⟨_, rfl, hmade, hnd⟩⟩
      · exact ⟨hnd, Or.inr ⟨_, rfl, hmade, hnd⟩⟩

/-- Every event keeps the ids distinct, a submission provided its id is fresh. -/
theorem unique_step (B : Browser) (s : AppState) (e : Event) (hI : Inv B s)
    (hU : UniqueInv B s) (hfresh : freshAt s e = true) : UniqueInv B (step B s e) := by
  cases e with
  | reload clk => exact unique_appNew B clk s.storage hU.2
  | position coords =>
    simp only [step]
    split
    · have hk := loadMap_keeps B { s with geoPending := false } coords
        (inv_of_same B s _ hI rfl rfl Iff.rfl rfl id id)
      exact unique_of_same B s _ hU hk.1 hk.2
    · exact hU
  | positionError => exact unique_of_same B s _ hU rfl rfl
  | mapClick latlng =>
    simp only [step]
    split
    · split
      · exact unique_of_same B s _ hU rfl rfl
      · exact hU
    · exact hU
  | edit field text =>
    cases field <;> exact unique_of_same B s _ hU rfl rfl
  | selectType type =>
    simp only [step]
    split <;> exact unique_of_same B s _ hU rfl rfl
  | submit clk =>
    simp only [step]
    split
    · exact unique_newWorkout B clk s hI hU hfresh
    · exact hU
  | clickEntry dataId =>
    simp only [step]
    split
    · exact unique_of_same B s _ hU (moveToPopup_keeps B s dataId).1
        (moveToPopup_keeps B s dataId).2
    · exact hU
  | clickDelete dataId confirmed =>
    simp only [step]
    split
    · exact unique_deleteWorkout B s dataId confirmed hI hU
    · exact hU
  | clickClear clk confirmed =>
    simp only [step]
    split
    · cases confirmed with
      | false => exact hU
      | true => exact unique_appNew B clk none (Or.inl rfl)
    · exact hU

theorem unique_foldl (B : Browser) (events : List Event) :
    ∀ s : AppState, Inv B s → UniqueInv B s → freshIds B s events = true →
      UniqueInv B (events.foldl (step B) s) := by
  induction events with
  | nil => exact fun _ _ h _ => h
  | cons e es ih =>
    intro s hI hU hf
    simp only [freshIds, Bool.and_eq_true] at hf
    exact ih _ (inv_step B s e hI) (unique_step B s e hI hU hf.1) hf.2

/-- C8 as stated fails: two runs logged ten thousand million milliseconds apart get the
same id. -/
theorem C8_ids_collide :
    (run sampleBrowser ⟨1699990000000, 1699990000000⟩ farApart).workouts.length = 2 ∧
    ¬ ((run sampleBrowser ⟨1699990000000, 1699990000000⟩ farApart).workouts.map
      Item.id).Nodup := by
  have h : (run sampleBrowser ⟨1699990000000, 1699990000000⟩ farApart).workouts.map Item.id
      = [.str "0000000000", .str "0000000000"] := rfl
  refine ⟨by decide, ?_⟩
  rw [h]
  simp

/-- C8, amended: in every state reached from a first visit by a sequence of events
(page loads, submissions and deletions among them) in which every submission happens at
a clock reading whose id differs from the ids of the workouts then in the list, no two
workouts of the list have the same id; and the id of a newly added workout is the last
ten characters of the decimal text of the millisecond clock at its construction. -/
theorem C8_ids_unique_when_fresh (B : Browser) (clk : Clock) (events : List Event)
    (hfresh : freshIds B (App.new B clk none).state events = true) :
    ((run B clk events).workouts.map Item.id).Nodup ∧
    (∀ c : Clock, (_newWorkout B c (run B clk events)).state = run B clk events ∨
      ∃ w : Item,
        (_newWorkout B c (run B clk events)).state.workouts
          = (run B clk events).workouts ++ [w] ∧
        w.id = .str (String.mk ((toString c.now).data.drop
          ((toString c.now).data.length - 10)))) :=
  ⟨(unique_foldl B events _ (inv_appNew B clk none (Or.inl rfl))
      (unique_appNew B clk none (Or.inl rfl)) hfresh).1,
    fun c => newWorkout_list B c (run B clk events)⟩

/-- C8, amended, on the sample page: a run and a ride logged a minute apart. -/
theorem C8_ids_unique_when_fresh_witness :
    freshIds sampleBrowser (App.new sampleBrowser ⟨0, 0⟩ none).state twoSubmissions = true ∧
    ((run sampleBrowser ⟨0, 0⟩ twoSubmissions).workouts.map Item.id).Nodup :=
  ⟨by decide, (C8_ids_unique_when_fresh sampleBrowser ⟨0, 0⟩ twoSubmissions (by decide)).1⟩

end AliyaserMap
